import Mathlib

/-!
# Verification of the wwise-audio-tools WEM → OGG converter

A shallow embedding, in Lean 4, of the parts of `tnt-coders/wwise-audio-tools`
(C++) that the checked specification claims talk about:

* `src/ww2ogg/bitstream.h` — the input bitstream (`Bitstream::GetBit`,
  `BitUintv >> `) and the OGG page assembler (`Bitoggstream::FlushPage`),
* `src/ww2ogg/codebook.h` — the Tremor `BookMaptype1Quantvals` algorithm,
* `src/ww2ogg/codebook.cpp` — `codebook_library::rebuild` (compact → canonical),
* `src/ww2ogg/wwriff.cpp` — the RIFF/WEM constructor parse, the comment-packet
  generation and the modified-audio-packet first-byte reconstruction,
* `src/revorb/revorb.cpp` — the regranulation recurrence,
* `src/bnk.cpp` — `wwtools::bnk::GetEventIdInfo`.

Machine integers are modelled as `Nat` (the concerned C++ arithmetic stays far
below the 32/64-bit bounds on every path reachable under the stated
hypotheses); C++ `long` fields that use `-1` as a sentinel are modelled as
`Int`.  Fallible stream reads are modelled with `Option`/`Except`.
-/

namespace WwiseTools

/-! ## Bitstream (input): `ww2ogg::Bitstream` from `src/ww2ogg/bitstream.h`

The C++ object wraps an `std::istream`; we model the remaining byte sequence
as a `List Nat` (each element one byte).  `GetBit` lazily fetches a byte when
`m_bits_left == 0`, then decrements `m_bits_left` and returns
`(m_bit_buffer & (0x80 >> m_bits_left)) != 0`. -/

structure Bitstream where
  bytes : List Nat
  bitBuffer : Nat
  bitsLeft : Nat
  totalBitsRead : Nat
deriving Repr, DecidableEq

/-- A freshly constructed `Bitstream` over a byte source (all counters zero,
as the member initialisers in the C++ class set them). -/
def Bitstream.init (bs : List Nat) : Bitstream :=
  { bytes := bs, bitBuffer := 0, bitsLeft := 0, totalBitsRead := 0 }

/-- `Bitstream::GetBit` (bitstream.h:185-198).  `none` models the
`OutOfBits` exception thrown at end of input. -/
def Bitstream.getBit (s : Bitstream) : Option (Bool × Bitstream) :=
  if s.bitsLeft = 0 then
    -- fetch the next byte: m_bits_left = 8, then --m_bits_left leaves 7
    match s.bytes with
    | [] => none
    | c :: rest =>
      some ((c &&& (0x80 >>> 7)) != 0,
        { bytes := rest, bitBuffer := c, bitsLeft := 7,
          totalBitsRead := s.totalBitsRead + 1 })
  else
    some ((s.bitBuffer &&& (0x80 >>> (s.bitsLeft - 1))) != 0,
      { s with bitsLeft := s.bitsLeft - 1, totalBitsRead := s.totalBitsRead + 1 })

/-- `operator>>(Bitstream&, BitUintv&)` (bitstream.h:467-476): read `n` bits,
bit `i` of the stream contributing `2^i` (Vorbis LSB-first convention). -/
def Bitstream.readUintv : Nat → Bitstream → Option (Nat × Bitstream)
  | 0, s => some (0, s)
  | n + 1, s =>
    match s.getBit with
    | none => none
    | some (b, s₁) =>
      match Bitstream.readUintv n s₁ with
      | none => none
      | some (v, s₂) => some ((if b then 1 else 0) + 2 * v, s₂)

/-- Skip to the result of the `k`-th call of `GetBit` (0-based): performs `k`
calls and returns the `(k+1)`-st. -/
def Bitstream.getBitN : Nat → Bitstream → Option (Bool × Bitstream)
  | 0, s => s.getBit
  | k + 1, s =>
    match s.getBit with
    | none => none
    | some (_, s') => Bitstream.getBitN k s'

/-! ### Bit order of `GetBit` (claim C2) -/

lemma shiftRight_128 (l : Nat) (h : l ≤ 7) : 128 >>> l = 2 ^ (7 - l) := by
  rw [Nat.shiftRight_eq_div_pow, show (128 : Nat) = 2 ^ 7 by norm_num]
  exact Nat.pow_div h (by norm_num)

lemma and_two_pow_bne (b i : Nat) : ((b &&& 2 ^ i) != 0) = b.testBit i := by
  rw [Nat.and_two_pow]
  cases h : b.testBit i <;> simp [h, Nat.pos_iff_ne_zero, Nat.pow_pos]

/-- `GetBit` in mid-byte state (`m_bits_left = l + 1`): returns bit `7 - l`
of the buffered byte (the `(8 - (l+1))`-th LSB-first bit), consuming one
bit and no byte. -/
lemma Bitstream.getBit_mid (bs : List Nat) (b t l : Nat) (h : l ≤ 7) :
    Bitstream.getBit
        { bytes := bs, bitBuffer := b, bitsLeft := l + 1, totalBitsRead := t } =
      some (b.testBit (7 - l),
        { bytes := bs, bitBuffer := b, bitsLeft := l, totalBitsRead := t + 1 }) := by
  simp only [Bitstream.getBit, Nat.add_sub_cancel, Nat.succ_ne_zero, if_false]
  rw [shiftRight_128 l h, and_two_pow_bne]

/-- Iterating `GetBit` inside one buffered byte: with `m_bits_left = L` and
`k < L ≤ 8` more calls, the `k`-th call returns bit `8 - L + k` of the
buffered byte, and no byte is fetched from the source. -/
lemma Bitstream.getBitN_mid (bs : List Nat) (b : Nat) :
    ∀ k L t, k < L → L ≤ 8 →
      Bitstream.getBitN k
          { bytes := bs, bitBuffer := b, bitsLeft := L, totalBitsRead := t } =
        some (b.testBit (8 - L + k),
          { bytes := bs, bitBuffer := b, bitsLeft := L - (k + 1),
            totalBitsRead := t + (k + 1) }) := by
  intro k
  induction k with
  | zero =>
    intro L t hk hL
    obtain ⟨l, rfl⟩ : ∃ l, L = l + 1 := ⟨L - 1, by omega⟩
    rw [Bitstream.getBitN, Bitstream.getBit_mid bs b t l (by omega)]
    have h1 : 8 - (l + 1) + 0 = 7 - l := by omega
    have h2 : l + 1 - (0 + 1) = l := by omega
    rw [h1, h2]
  | succ k ih =>
    intro L t hk hL
    obtain ⟨l, rfl⟩ : ∃ l, L = l + 1 := ⟨L - 1, by omega⟩
    simp only [Bitstream.getBitN, Bitstream.getBit_mid bs b t l (by omega : l ≤ 7)]
    rw [ih l (t + 1) (by omega) (by omega)]
    have h1 : 8 - (l + 1) + (k + 1) = 8 - l + k := by omega
    have h2 : l + 1 - (k + 1 + 1) = l - (k + 1) := by omega
    have h3 : t + (k + 1 + 1) = t + 1 + (k + 1) := by omega
    rw [h1, h2, h3]

/-- **C2 (amended).** `Bitstream::GetBit` (bitstream.h:185-198) consumes the
next bit **LSB-first** within each byte: on a freshly loaded byte `b`, the
`k`-th call (`k < 8`, 0-based) returns bit `k` of `b` — mask `1 << k`, so the
first call returns the *least* significant bit (mask `0x01`) — and a new byte
is fetched lazily, only once the current byte's 8 bits are exhausted (the
remaining byte source `rest` is untouched throughout). -/
theorem getBit_lsb_first (b : Nat) (rest : List Nat) (k : Nat)
    (hk : k < 8) (hb : b < 256) :
    Bitstream.getBitN k (Bitstream.init (b :: rest)) =
      some (b.testBit k,
        { bytes := rest, bitBuffer := b, bitsLeft := 7 - k,
          totalBitsRead := k + 1 }) := by
  have hfirst : (Bitstream.init (b :: rest)).getBit =
      some (b.testBit 0,
        { bytes := rest, bitBuffer := b, bitsLeft := 7, totalBitsRead := 1 }) := by
    simp only [Bitstream.init, Bitstream.getBit, if_true]
    rw [show (128 >>> 7 : Nat) = 2 ^ 0 by rfl, and_two_pow_bne]
  match k with
  | 0 => rw [Bitstream.getBitN, hfirst]
  | k + 1 =>
    simp only [Bitstream.getBitN, hfirst]
    rw [Bitstream.getBitN_mid rest b k 7 1 (by omega) (by omega)]
    have h1 : 8 - 7 + k = k + 1 := by omega
    have h2 : (1 : Nat) + (k + 1) = k + 1 + 1 := by omega
    rw [h1, h2]

/-- Witness for `getBit_lsb_first`: on the byte `0xB5 = 0b10110101`, the
fourth call (`k = 3`) returns `false` (bit 3 of `0xB5`). -/
theorem getBit_lsb_first_witness :
    Bitstream.getBitN 3 (Bitstream.init [0xB5, 0x01]) =
      some (Nat.testBit 0xB5 3,
        { bytes := [0x01], bitBuffer := 0xB5, bitsLeft := 4,
          totalBitsRead := 4 }) :=
  getBit_lsb_first 0xB5 [0x01] 3 (by decide) (by decide)

/-- **C2, counterexample to the claim as stated.**  The claim says the first
`GetBit` call on a byte returns its most significant bit (mask `0x80`).  On
the byte `0x80` that bit is `1`, yet the first call returns `false`: the code
reads LSB-first, not MSB-first. -/
theorem getBit_msb_first_counterexample :
    (Bitstream.getBitN 0 (Bitstream.init [0x80])).map Prod.fst = some false ∧
      Nat.testBit 0x80 7 = true := by decide

/-! ## Tremor quantvals: `BookMaptype1Quantvals` from `src/ww2ogg/codebook.h` -/

/-- `Ilog` (codebook.h:15-24): number of bits needed to represent `v`
(`0` for `v = 0`). -/
def ilog : Nat → Nat
  | 0 => 0
  | v + 1 => 1 + ilog ((v + 1) / 2)

/-- The hint-polishing loop of `BookMaptype1Quantvals` (codebook.h:36-57).
The C++ loop is `while (true)`; we supply explicit fuel (the caller passes
enough for every reachable input, see `bookMaptype1Quantvals_spec`). -/
def qvLoop (entries dimensions : Nat) : Nat → Nat → Nat
  | 0, vals => vals
  | fuel + 1, vals =>
    if vals ^ dimensions ≤ entries ∧ entries < (vals + 1) ^ dimensions then vals
    else if entries < vals ^ dimensions then qvLoop entries dimensions fuel (vals - 1)
    else qvLoop entries dimensions fuel (vals + 1)

/-- `BookMaptype1Quantvals` (codebook.h:29-58): integer `dimensions`-th root
of `entries`, computed from the Tremor starting hint
`entries >> ((ilog(entries) - 1) * (dimensions - 1) / dimensions)`. -/
def bookMaptype1Quantvals (entries dimensions : Nat) : Nat :=
  let bits := ilog entries
  let vals := entries >>> ((bits - 1) * (dimensions - 1) / dimensions)
  qvLoop entries dimensions (entries + 2) vals

/-- Descent side of the `qvLoop` analysis: as long as `entries` is strictly
below `(vals + 1) ^ dimensions`, the loop walks `vals` downwards and stops at
the integer root. -/
lemma qvLoop_down (entries dimensions : Nat) (hd : 1 ≤ dimensions) :
    ∀ fuel vals, vals < fuel → entries < (vals + 1) ^ dimensions →
      (qvLoop entries dimensions fuel vals) ^ dimensions ≤ entries ∧
        entries < (qvLoop entries dimensions fuel vals + 1) ^ dimensions := by
  intro fuel
  induction fuel with
  | zero => intro vals h _; omega
  | succ fuel ih =>
    intro vals hv hub
    rw [qvLoop]
    by_cases h1 : vals ^ dimensions ≤ entries ∧ entries < (vals + 1) ^ dimensions
    · rw [if_pos h1]; exact h1
    · have hgt : entries < vals ^ dimensions := by
        rcases Nat.lt_or_ge entries (vals ^ dimensions) with h | h
        · exact h
        · exact absurd ⟨h, hub⟩ h1
      rw [if_neg h1, if_pos hgt]
      have hv1 : 1 ≤ vals := by
        by_contra h0
        push_neg at h0
        interval_cases vals
        rw [Nat.zero_pow (by omega)] at hgt
        omega
      refine ih (vals - 1) (by omega) ?_
      have hveq : vals - 1 + 1 = vals := by omega
      rw [hveq]
      exact hgt

/-- Ascent side of the `qvLoop` analysis: as long as `vals ^ dimensions` stays
below `entries`, the loop walks `vals` upwards and stops at the integer
root. -/
lemma qvLoop_up (entries dimensions : Nat) (hd : 1 ≤ dimensions) :
    ∀ fuel vals, entries - vals < fuel → vals ^ dimensions ≤ entries →
      (qvLoop entries dimensions fuel vals) ^ dimensions ≤ entries ∧
        entries < (qvLoop entries dimensions fuel vals + 1) ^ dimensions := by
  intro fuel
  induction fuel with
  | zero =>
    intro vals hf hlb
    exfalso
    have hvals : vals ≤ entries := le_trans (Nat.le_self_pow (by omega) vals) hlb
    omega
  | succ fuel ih =>
    intro vals hf hlb
    rw [qvLoop]
    by_cases h1 : vals ^ dimensions ≤ entries ∧ entries < (vals + 1) ^ dimensions
    · rw [if_pos h1]; exact h1
    · have hub : (vals + 1) ^ dimensions ≤ entries := by
        rcases Nat.lt_or_ge entries ((vals + 1) ^ dimensions) with h | h
        · exact absurd ⟨hlb, h⟩ h1
        · exact h
      rw [if_neg h1, if_neg (by omega)]
      refine ih (vals + 1) ?_ hub
      have hvs : vals + 1 ≤ entries := le_trans (Nat.le_self_pow (by omega) _) hub
      omega

/-- **C6.** For every `entries ∈ [1, 2^14)` and `dimensions ∈ [1, 2^4)`,
`BookMaptype1Quantvals` (codebook.h:29-58) returns `vals` with
`vals ^ dimensions ≤ entries < (vals + 1) ^ dimensions`: the integer
`dimensions`-th root of `entries`, found by the Tremor hint-and-adjust
algorithm in exact integer arithmetic. -/
theorem bookMaptype1Quantvals_spec (entries dimensions : Nat)
    (he1 : 1 ≤ entries) (he2 : entries < 2 ^ 14)
    (hd1 : 1 ≤ dimensions) (hd2 : dimensions < 2 ^ 4) :
    (bookMaptype1Quantvals entries dimensions) ^ dimensions ≤ entries ∧
      entries < (bookMaptype1Quantvals entries dimensions + 1) ^ dimensions := by
  unfold bookMaptype1Quantvals
  set hint := entries >>> ((ilog entries - 1) * (dimensions - 1) / dimensions) with hh
  have hhint_le : hint ≤ entries := by
    rw [hh, Nat.shiftRight_eq_div_pow]
    exact Nat.div_le_self _ _
  by_cases hcase : entries < (hint + 1) ^ dimensions
  · exact qvLoop_down entries dimensions hd1 (entries + 2) hint (by omega) hcase
  · push_neg at hcase
    have hlb : hint ^ dimensions ≤ entries :=
      le_trans (Nat.pow_le_pow_left (Nat.le_succ hint) dimensions) hcase
    exact qvLoop_up entries dimensions hd1 (entries + 2) hint
      (by have := Nat.sub_le entries hint; omega) hlb

/-- Witness for `bookMaptype1Quantvals_spec` at `entries = 100`,
`dimensions = 2` (the returned value is `10`, and `10² ≤ 100 < 11²`). -/
theorem bookMaptype1Quantvals_spec_witness :
    (bookMaptype1Quantvals 100 2) ^ 2 ≤ 100 ∧
      100 < (bookMaptype1Quantvals 100 2 + 1) ^ 2 :=
  bookMaptype1Quantvals_spec 100 2 (by decide) (by decide) (by decide) (by decide)

/-! ## OGG page assembler: `ww2ogg::Bitoggstream` from `src/ww2ogg/bitstream.h` -/

/-- Modelled from the spec: the OGG page CRC32 (`Checksum`, declared in
`src/ww2ogg/crc.h`; its implementation file is not among the provided
sources).  Spec §3: polynomial `0x04C11DB7`, initial value 0, no reflection,
no final XOR — one shift-and-conditional-xor step per bit, all in a 32-bit
register. -/
def crcBitStep (r : Nat) : Nat :=
  if r.testBit 31 then ((r <<< 1) ^^^ 0x04C11DB7) % 2 ^ 32
  else (r <<< 1) % 2 ^ 32

/-- Modelled from the spec: feed one byte (MSB-first) into the CRC32
register. -/
def crcByte (r b : Nat) : Nat :=
  crcBitStep^[8] (r ^^^ (b <<< 24))

/-- Modelled from the spec: `Checksum(data, bytes)` over a whole byte
sequence, starting from register 0. -/
def checksum (data : List Nat) : Nat :=
  data.foldl crcByte 0

/-- Little-endian 4-byte encoding, as `Write32Le` (bitstream.h:37-44). -/
def le32 (v : Nat) : List Nat :=
  [v % 256, v / 256 % 256, v / 2 ^ 16 % 256, v / 2 ^ 24 % 256]

/-- The lacing-value loop of `FlushPage` (bitstream.h:319-330): one entry per
segment; `bytes_left` is only decremented while it is ≥ 255 (so a final short
segment repeats the remaining count, exactly as in the source). -/
def lacingValues : Nat → Nat → List Nat
  | _, 0 => []
  | bytesLeft, i + 1 =>
    if bytesLeft ≥ 255 then 255 :: lacingValues (bytesLeft - 255) i
    else bytesLeft :: lacingValues bytesLeft i

/-- Patch a 32-bit LE value over four bytes at `off` (the in-place CRC fix-up
of bitstream.h:333-334). -/
def patch32 (page : List Nat) (off v : Nat) : List Nat :=
  page.take off ++ le32 v ++ page.drop (off + 4)

/-- State of a `Bitoggstream` (bitstream.h:214-359).  `output` is the byte
sequence written to the wrapped `std::ostream` so far; `payload` the bytes
accumulated into the current page (`m_payload_bytes` is its length). -/
structure Bitoggstream where
  output : List Nat
  bitBuffer : Nat
  bitsStored : Nat
  payload : List Nat
  first : Bool
  continued : Bool
  granule : Nat
  seqno : Nat
deriving Repr, DecidableEq

/-- A freshly constructed `Bitoggstream` (member initialisers of
bitstream.h:218-234). -/
def Bitoggstream.mkInit : Bitoggstream :=
  { output := [], bitBuffer := 0, bitsStored := 0, payload := [],
    first := true, continued := false, granule := 0, seqno := 0 }

/-- `Bitoggstream::FlushBits` (bitstream.h:264-279).  The `error` case models
the `ParseErrorStr("ran out of space in an Ogg packet")` throw. -/
def Bitoggstream.flushBits (s : Bitoggstream) : Except String Bitoggstream :=
  if s.bitsStored ≠ 0 then
    if s.payload.length = 255 * 255 then
      .error "ran out of space in an Ogg packet"
    else
      .ok { s with payload := s.payload ++ [s.bitBuffer],
                   bitsStored := 0, bitBuffer := 0 }
  else .ok s

/-- `Bitoggstream::PutBit` (bitstream.h:247-257): accumulate LSB-first into
the partial byte, flushing it into the page once 8 bits are stored. -/
def Bitoggstream.putBit (s : Bitoggstream) (bit : Bool) : Except String Bitoggstream :=
  let buf := if bit then s.bitBuffer ||| (1 <<< s.bitsStored) else s.bitBuffer
  let s' := { s with bitBuffer := buf, bitsStored := s.bitsStored + 1 }
  if s'.bitsStored = 8 then s'.flushBits else .ok s'

/-- `Bitoggstream::SetGranule` (bitstream.h:259-262). -/
def Bitoggstream.setGranule (s : Bitoggstream) (g : Nat) : Bitoggstream :=
  { s with granule := g }

/-- `Bitoggstream::FlushPage` (bitstream.h:281-347): pad the partial byte,
and — only if the page holds payload — assemble the 27-byte header, segment
table and payload, compute the CRC over the page with a zeroed checksum
field, patch it in at offset 22, append the page to the output, bump the
sequence number, clear BOS and install `next_continued`. -/
def Bitoggstream.flushPage (s : Bitoggstream)
    (nextContinued : Bool := false) (last : Bool := false) :
    Except String Bitoggstream := do
  let s ← if s.payload.length ≠ 255 * 255 then s.flushBits else pure s
  if s.payload.length ≠ 0 then
    let segments0 := (s.payload.length + 255) / 255
    let segments := if segments0 = 255 + 1 then 255 else segments0
    let headerZeroCrc : List Nat :=
      [0x4F, 0x67, 0x67, 0x53, 0,
        (if s.continued then 1 else 0) ||| (if s.first then 2 else 0) |||
          (if last then 4 else 0)] ++
      le32 s.granule ++
      (if s.granule = 0xFFFFFFFF then le32 0xFFFFFFFF else le32 0) ++
      le32 1 ++ le32 s.seqno ++ le32 0 ++
      [segments] ++ lacingValues s.payload.length segments
    let pageZeroCrc := headerZeroCrc ++ s.payload
    let page := patch32 pageZeroCrc 22 (checksum pageZeroCrc)
    pure { s with output := s.output ++ page, payload := [],
                  seqno := s.seqno + 1, first := false,
                  continued := nextContinued }
  else
    pure s

/-- **C10.** `FlushPage` is a no-op on an empty writer: when no payload bytes
have accumulated and no partial-byte bits are pending, it writes nothing to
the output and leaves every field — in particular the page sequence number,
the beginning-of-stream flag and the continued flag — unchanged.  Hence the
destructor's final `FlushPage` never emits an empty trailing page after a
page-aligned flush. -/
theorem flushPage_noop (s : Bitoggstream) (nextContinued last : Bool)
    (hpayload : s.payload = []) (hbits : s.bitsStored = 0) :
    s.flushPage nextContinued last = .ok s := by
  rw [Bitoggstream.flushPage]
  rw [Bitoggstream.flushBits]
  simp [hpayload, hbits, Bind.bind, Except.bind]
  rfl

/-- Witness for `flushPage_noop` at the freshly constructed writer. -/
theorem flushPage_noop_witness :
    Bitoggstream.flushPage Bitoggstream.mkInit false true =
      .ok Bitoggstream.mkInit :=
  flushPage_noop Bitoggstream.mkInit false true (by rfl) (by rfl)

/-! ## Regranulator: `revorb::Revorb` from `src/revorb/revorb.cpp`

The audio-packet loop (revorb.cpp:286-294) receives each packet's block size
from the external oracle `vorbis_packet_blocksize` and maintains
`granpos`/`lastbs`/`packetnum`; every packet is stamped with the running
granule and its packet number. -/

/-- One iteration of the revorb packet loop (revorb.cpp:286-294): given
`(granpos, lastbs, packetnum)` and the new block size `bs`, advance the
granule by `(lastbs + bs) / 4` unless `lastbs == 0`, and stamp the packet. -/
def revorbStep (st : Nat × Nat × Nat) (bs : Nat) : (Nat × Nat) × (Nat × Nat × Nat) :=
  let (granpos, lastbs, packetnum) := st
  let granpos' := if lastbs ≠ 0 then granpos + (lastbs + bs) / 4 else granpos
  ((granpos', packetnum), (granpos', bs, packetnum + 1))

/-- Run the revorb packet loop from a given `(granpos, lastbs, packetnum)`
state, collecting each packet's `(granulepos, packetno)` stamp. -/
def revorbLoop : Nat × Nat × Nat → List Nat → List (Nat × Nat)
  | _, [] => []
  | st, bs :: rest =>
    let (stamp, st') := revorbStep st bs
    stamp :: revorbLoop st' rest

/-- The revorb packet loop from its initial state
(`granpos = 0`, `lastbs = 0`, `packetnum = 0`, revorb.cpp:235-237). -/
def revorbStamps (blockSizes : List Nat) : List (Nat × Nat) :=
  revorbLoop (0, 0, 0) blockSizes

lemma revorbLoop_length (bss : List Nat) :
    ∀ st, (revorbLoop st bss).length = bss.length := by
  induction bss with
  | nil => intro st; rfl
  | cons b rest ih =>
    intro st
    simp only [revorbLoop, revorbStep, List.length_cons]
    rw [ih]

lemma revorbLoop_packetno (bss : List Nat) :
    ∀ g last num i, i < bss.length →
      ((revorbLoop (g, last, num) bss).getD i (0, 0)).2 = num + i := by
  induction bss with
  | nil => intro _ _ _ i hi; simp at hi
  | cons b rest ih =>
    intro g last num i hi
    match i with
    | 0 => simp [revorbLoop, revorbStep]
    | i + 1 =>
      simp only [revorbLoop, revorbStep, List.getD_cons_succ]
      rw [ih _ b (num + 1) i (by simpa using Nat.lt_of_succ_lt_succ hi)]
      omega

lemma revorbLoop_head (b : Nat) (rest : List Nat) (g last num : Nat) :
    ((revorbLoop (g, last, num) (b :: rest)).getD 0 (0, 0)).1 =
      if last ≠ 0 then g + (last + b) / 4 else g := by
  simp [revorbLoop, revorbStep]

lemma revorbLoop_diff (bss : List Nat) :
    ∀ g last num, (∀ x ∈ bss, 0 < x) → ∀ i, i + 1 < bss.length →
      ((revorbLoop (g, last, num) bss).getD (i + 1) (0, 0)).1 =
        ((revorbLoop (g, last, num) bss).getD i (0, 0)).1 +
          (bss.getD i 0 + bss.getD (i + 1) 0) / 4 := by
  induction bss with
  | nil => intro _ _ _ _ i hi; simp at hi
  | cons b rest ih =>
    intro g last num hpos i hi
    match rest, i with
    | r0 :: rest', 0 =>
      have hb : b ≠ 0 := Nat.pos_iff_ne_zero.mp (hpos b (by simp))
      simp [revorbLoop, revorbStep, hb]
    | r0 :: rest', i + 1 =>
      simp only [revorbLoop, revorbStep, List.getD_cons_succ]
      exact ih _ b (num + 1) (fun x hx => hpos x (by simp [hx])) i
        (by simpa using Nat.lt_of_succ_lt_succ hi)

/-- **C4.** In the regranulator (revorb.cpp:286-294), over the block sizes
reported by the block-size oracle (all positive): the first audio packet is
stamped with granule position 0; for every subsequent packet `i > 0` the
running granule advances by `(b_{i-1} + b_i) / 4`; and every packet is
stamped with the running granule and with `packetno` equal to its
audio-packet index. -/
theorem revorb_granule_spec (bss : List Nat) (hpos : ∀ b ∈ bss, 0 < b) :
    (revorbStamps bss).length = bss.length ∧
    (∀ i, i < bss.length → ((revorbStamps bss).getD i (0, 0)).2 = i) ∧
    (0 < bss.length → ((revorbStamps bss).getD 0 (0, 0)).1 = 0) ∧
    (∀ i, i + 1 < bss.length →
      ((revorbStamps bss).getD (i + 1) (0, 0)).1 =
        ((revorbStamps bss).getD i (0, 0)).1 +
          (bss.getD i 0 + bss.getD (i + 1) 0) / 4) := by
  refine ⟨revorbLoop_length bss _, ?_, ?_, ?_⟩
  · intro i hi
    rw [revorbStamps, revorbLoop_packetno bss 0 0 0 i hi]
    omega
  · intro hlen
    match bss, hlen with
    | b :: rest, _ => simp [revorbStamps, revorbLoop, revorbStep]
  · intro i hi
    exact revorbLoop_diff bss 0 0 0 hpos i hi

/-- Witness for `revorb_granule_spec` on the block sizes `[512, 2048, 512]`
(stamps: granules `0, 640, 1280`, packet numbers `0, 1, 2`). -/
theorem revorb_granule_spec_witness :
    (∀ b ∈ [512, 2048, 512], 0 < b) ∧
      ((revorbStamps [512, 2048, 512]).getD 1 (0, 0)).1 =
        ((revorbStamps [512, 2048, 512]).getD 0 (0, 0)).1 +
          (([512, 2048, 512] : List Nat).getD 0 0 +
            ([512, 2048, 512] : List Nat).getD 1 0) / 4 :=
  ⟨by decide, ((revorb_granule_spec [512, 2048, 512] (by decide)).2.2.2) 0 (by decide)⟩

/-! ## Codebook rebuilder: `codebook_library::rebuild` from `src/ww2ogg/codebook.cpp`

The compact → canonical translation (codebook.cpp:186-314).  The stream side
is the `Bitstream` model above; the emitted canonical bits are collected into
a `List Bool` (the `bos << BitUint<n>(v)` writes, LSB-first). -/

/-- The LSB-first bit image of the low `n` bits of `v`
(`operator<<(Bitoggstream&, BitUint<n>)`, bitstream.h:415-422). -/
def lsbBits (v n : Nat) : List Bool :=
  (List.range n).map v.testBit

/-- Errors of the codebook rebuilder: `Out_of_bits` from the bitstream,
`parse_error_str(msg)`, and `size_mismatch(expected, actual)`. -/
inductive CbErr where
  | outOfBits : CbErr
  | parseError (msg : String) : CbErr
  | sizeMismatch (expected actual : Nat) : CbErr
deriving Repr, DecidableEq

/-- Rebuild state: the input `Bitstream` plus the canonical bits emitted so
far. -/
abbrev RState := Bitstream × List Bool

/-- Read `n` bits from the input stream (`bis >> BitUintv(n)`), failing with
`Out_of_bits` at end of input. -/
def readU (n : Nat) (st : RState) : Except CbErr (Nat × RState) :=
  match Bitstream.readUintv n st.1 with
  | none => .error .outOfBits
  | some (v, s') => .ok (v, (s', st.2))

/-- Emit the low `n` bits of `v` (`bos << BitUint<n>(v)`). -/
def emit (st : RState) (v n : Nat) : RState :=
  (st.1, st.2 ++ lsbBits v n)

/-- The ordered-lengths `while (current_entry < entries)` loop
(codebook.cpp:211-219).  The C++ loop has no counter: it can only stop by
reaching `entries` or by exhausting the stream; `fuel = 0` therefore stands
for stream exhaustion (the caller passes one unit of fuel per remaining input
bit, and every iteration consumes at least one bit). -/
def orderedLoop (entries : Nat) : Nat → Nat → RState → Except CbErr (Nat × RState)
  | 0, _, _ => .error .outOfBits
  | fuel + 1, current, st =>
    if current < entries then do
      let (number, st) ← readU (ilog (entries - current)) st
      let st := emit st number (ilog (entries - current))
      orderedLoop entries fuel (current + number) st
    else .ok (current, st)

/-- The sparse presence flag of one unordered entry (codebook.cpp:242-252):
read and copy a 1-bit flag when `sparse`, otherwise `present_bool = true`. -/
def readPresent (sparse : Nat) (st : RState) : Except CbErr (Bool × RState) :=
  if sparse ≠ 0 then do
    let (present, st) ← readU 1 st
    pure (present != 0, emit st present 1)
  else
    pure (true, st)

/-- One iteration of the unordered per-entry loop (codebook.cpp:240-263):
optional presence bit, then the `codeword_length_length`-bit codeword length
re-emitted as 5 bits. -/
def unorderedStep (sparse cll : Nat) (st : RState) : Except CbErr RState := do
  let (presentBool, st) ← readPresent sparse st
  if presentBool then do
    let (codewordLength, st) ← readU cll st
    pure (emit st codewordLength 5)
  else
    pure st

/-- The unordered per-entry loop (codebook.cpp:240-263), one `unorderedStep`
per entry. -/
def unorderedLoop (sparse cll : Nat) : Nat → RState → Except CbErr RState
  | 0, st => .ok st
  | n + 1, st => do
    let st ← unorderedStep sparse cll st
    unorderedLoop sparse cll n st

/-- The lookup-1 quantvals loop (codebook.cpp:290-296): copy `count` values
of `width` bits each. -/
def quantvalsLoop (width : Nat) : Nat → RState → Except CbErr RState
  | 0, st => .ok st
  | n + 1, st => do
    let (v, st) ← readU width st
    let st := emit st v width
    quantvalsLoop width n st

/-- The codeword-length section of `rebuild` (codebook.cpp:200-264): the
ordered run-length path (with its `current_entry` range check) or the
unordered path (3-bit length width — `1..5`, else error — plus per-entry
loop). -/
def rebuildLengths (entries ordered : Nat) (st : RState) : Except CbErr RState :=
  if ordered ≠ 0 then do
    let (initialLength, st) ← readU 5 st
    let st := emit st initialLength 5
    let fuel := st.1.bytes.length * 8 + st.1.bitsLeft + 1
    let (current, st) ← orderedLoop entries fuel 0 st
    if current > entries then
      .error (.parseError "current_entry out of range")
    else
      pure st
  else do
    let (cll, st) ← readU 3 st
    let (sparse, st) ← readU 1 st
    if cll = 0 ∨ cll > 5 then
      .error (.parseError "nonsense codeword length")
    else
      unorderedLoop sparse cll entries (emit st sparse 1)

/-- The lookup-type-1 body of `rebuild` (codebook.cpp:278-297): copy
min/max/value-length/sequence-flag, then `quantvals` values. -/
def rebuildLookup1 (entries dimensions : Nat) (st : RState) : Except CbErr RState := do
  let (minLen, st) ← readU 32 st
  let (maxLen, st) ← readU 32 st
  let (valueLength, st) ← readU 4 st
  let (sequenceFlag, st) ← readU 1 st
  let st := emit st minLen 32
  let st := emit st maxLen 32
  let st := emit st valueLength 4
  let st := emit st sequenceFlag 1
  quantvalsLoop (valueLength + 1) (bookMaptype1Quantvals entries dimensions) st

/-- The lookup-table section of `rebuild` (codebook.cpp:266-305): a **1-bit**
lookup type read from the compact form, re-emitted as 4 bits, then dispatch
on its value — including the (dead) `lookup_type == 2` error branch,
transcribed as in the source. -/
def rebuildLookup (entries dimensions : Nat) (st : RState) : Except CbErr RState := do
  let (lookupType, st) ← readU 1 st
  let st := emit st lookupType 4
  if lookupType = 0 then
    pure st
  else if lookupType = 1 then
    rebuildLookup1 entries dimensions st
  else if lookupType = 2 then
    .error (.parseError "didn't expect lookup type 2")
  else
    .error (.parseError "invalid lookup type")

/-- The final whole-byte check of `rebuild` (codebook.cpp:307-313). -/
def rebuildSizeCheck (cbSize : Nat) (st : RState) : Except CbErr RState :=
  if cbSize ≠ 0 ∧ st.1.totalBitsRead / 8 + 1 ≠ cbSize then
    .error (.sizeMismatch cbSize (st.1.totalBitsRead / 8 + 1))
  else
    pure st

/-- `codebook_library::rebuild(bis, cb_size, bos)` (codebook.cpp:186-314):
compact Wwise codebook in, canonical Vorbis codebook bits out. -/
def rebuildCb (s : Bitstream) (cbSize : Nat) : Except CbErr RState := do
  let st : RState := (s, [])
  let (dimensions, st) ← readU 4 st
  let (entries, st) ← readU 14 st
  let st := emit st 0x564342 24
  let st := emit st dimensions 16
  let st := emit st entries 24
  let (ordered, st) ← readU 1 st
  let st := emit st ordered 1
  let st ← rebuildLengths entries ordered st
  let st ← rebuildLookup entries dimensions st
  rebuildSizeCheck cbSize st

/-! ### Unreachability of the lookup-type-2 error in `rebuild` (claim C7)

In the compact form the lookup type is read as a *1-bit* field
(codebook.cpp:268-269), so its value is 0 or 1 and the
`"didn't expect lookup type 2"` branch (codebook.cpp:298-301) is dead. -/

/-- The result is not the `"didn't expect lookup type 2"` parse error. -/
def NotLookup2 {α : Type} (r : Except CbErr α) : Prop :=
  r ≠ .error (CbErr.parseError "didn't expect lookup type 2")

lemma notLookup2_ok {α : Type} (a : α) :
    NotLookup2 (Except.ok a : Except CbErr α) := by
  intro h
  cases h

lemma notLookup2_error {α : Type} (er : CbErr)
    (h : er ≠ CbErr.parseError "didn't expect lookup type 2") :
    NotLookup2 (Except.error er : Except CbErr α) := by
  intro hc
  injection hc with h2
  exact h h2

lemma notLookup2_bind {α β : Type} {ma : Except CbErr α} {f : α → Except CbErr β}
    (h1 : NotLookup2 ma) (h2 : ∀ a, NotLookup2 (f a)) : NotLookup2 (ma >>= f) := by
  cases ma with
  | error e1 =>
    intro hcontra
    have hred : (Except.error e1 : Except CbErr α) >>= f = Except.error e1 := rfl
    rw [hred] at hcontra
    injection hcontra with h
    exact h1 (by rw [h])
  | ok a =>
    intro hcontra
    have hred : (Except.ok a : Except CbErr α) >>= f = f a := rfl
    rw [hred] at hcontra
    exact h2 a hcontra

lemma notLookup2_readU (n : Nat) (st : RState) : NotLookup2 (readU n st) := by
  rw [readU]
  cases Bitstream.readUintv n st.1 with
  | none => exact notLookup2_error _ (by simp)
  | some p => exact notLookup2_ok _

/-- `BitUintv >> ` over `n` bits yields a value below `2 ^ n`. -/
lemma readUintv_lt (n : Nat) : ∀ s v s2,
    Bitstream.readUintv n s = some (v, s2) → v < 2 ^ n := by
  induction n with
  | zero =>
    intro s v s2 h
    rw [Bitstream.readUintv] at h
    injection h with h2
    have hv := congrArg Prod.fst h2
    simp at hv
    omega
  | succ n ih =>
    intro s v s2 h
    rw [Bitstream.readUintv] at h
    cases hg : s.getBit with
    | none => simp [hg] at h
    | some p =>
      obtain ⟨b, s1⟩ := p
      cases hr : Bitstream.readUintv n s1 with
      | none => simp [hg, hr] at h
      | some q =>
        obtain ⟨v1, s3⟩ := q
        simp only [hg, hr, Option.some.injEq, Prod.mk.injEq] at h
        obtain ⟨hv, hs⟩ := h
        have hb : v1 < 2 ^ n := ih s1 v1 s3 hr
        have hpow : 2 ^ (n + 1) = 2 * 2 ^ n := by ring
        cases b <;> simp at hv <;> omega

/-- Bind through `readU n`, with the value bound `< 2 ^ n` available in the
continuation. -/
lemma notLookup2_bind_readU {β : Type} (n : Nat) (st : RState)
    {f : Nat × RState → Except CbErr β}
    (h : ∀ v st2, v < 2 ^ n → NotLookup2 (f (v, st2))) :
    NotLookup2 (readU n st >>= f) := by
  cases hr : Bitstream.readUintv n st.1 with
  | none =>
    have hred : readU n st = .error .outOfBits := by rw [readU, hr]
    rw [hred]
    intro hcontra
    have hred2 : (Except.error CbErr.outOfBits : Except CbErr (Nat × RState)) >>= f =
        Except.error CbErr.outOfBits := rfl
    rw [hred2] at hcontra
    injection hcontra with h2
    cases h2
  | some p =>
    obtain ⟨v, s2⟩ := p
    have hred : readU n st = .ok (v, (s2, st.2)) := by rw [readU, hr]
    rw [hred]
    intro hcontra
    have hred2 : (Except.ok (v, (s2, st.2)) : Except CbErr (Nat × RState)) >>= f =
        f (v, (s2, st.2)) := rfl
    rw [hred2] at hcontra
    exact h v (s2, st.2) (readUintv_lt n st.1 v s2 hr) hcontra

lemma notLookup2_orderedLoop (entries : Nat) :
    ∀ fuel current st, NotLookup2 (orderedLoop entries fuel current st) := by
  intro fuel
  induction fuel with
  | zero => intro current st; exact notLookup2_error _ (by simp)
  | succ fuel ih =>
    intro current st
    rw [orderedLoop]
    split
    · refine notLookup2_bind (notLookup2_readU _ _) ?_
      rintro ⟨number, st2⟩
      exact ih _ _
    · exact notLookup2_ok _

lemma notLookup2_readPresent (sparse : Nat) (st : RState) :
    NotLookup2 (readPresent sparse st) := by
  rw [readPresent]
  split
  · refine notLookup2_bind (notLookup2_readU _ _) ?_
    rintro ⟨present, st2⟩
    exact notLookup2_ok _
  · exact notLookup2_ok _

lemma notLookup2_unorderedStep (sparse cll : Nat) (st : RState) :
    NotLookup2 (unorderedStep sparse cll st) := by
  rw [unorderedStep]
  refine notLookup2_bind (notLookup2_readPresent _ _) ?_
  rintro ⟨presentBool, st2⟩
  simp only []
  split
  · refine notLookup2_bind (notLookup2_readU _ _) ?_
    rintro ⟨cw, st3⟩
    exact notLookup2_ok _
  · exact notLookup2_ok _

lemma notLookup2_unorderedLoop (sparse cll : Nat) :
    ∀ n st, NotLookup2 (unorderedLoop sparse cll n st) := by
  intro n
  induction n with
  | zero => intro st; exact notLookup2_ok _
  | succ n ih =>
    intro st
    rw [unorderedLoop]
    refine notLookup2_bind (notLookup2_unorderedStep _ _ _) ?_
    intro st2
    exact ih st2

lemma notLookup2_quantvalsLoop (width : Nat) :
    ∀ n st, NotLookup2 (quantvalsLoop width n st) := by
  intro n
  induction n with
  | zero => intro st; exact notLookup2_ok _
  | succ n ih =>
    intro st
    rw [quantvalsLoop]
    refine notLookup2_bind (notLookup2_readU _ _) ?_
    rintro ⟨v, st2⟩
    exact ih _

lemma notLookup2_rebuildLengths (entries ordered : Nat) (st : RState) :
    NotLookup2 (rebuildLengths entries ordered st) := by
  rw [rebuildLengths]
  split
  · refine notLookup2_bind (notLookup2_readU _ _) ?_
    rintro ⟨initialLength, st2⟩
    refine notLookup2_bind (notLookup2_orderedLoop _ _ _ _) ?_
    rintro ⟨current, st3⟩
    simp only []
    split
    · exact notLookup2_error _ (by simp)
    · exact notLookup2_ok _
  · refine notLookup2_bind (notLookup2_readU _ _) ?_
    rintro ⟨cll, st2⟩
    refine notLookup2_bind (notLookup2_readU _ _) ?_
    rintro ⟨sparse, st3⟩
    simp only []
    split
    · exact notLookup2_error _ (by simp)
    · exact notLookup2_unorderedLoop _ _ _ _

lemma notLookup2_rebuildLookup1 (entries dimensions : Nat) (st : RState) :
    NotLookup2 (rebuildLookup1 entries dimensions st) := by
  rw [rebuildLookup1]
  refine notLookup2_bind (notLookup2_readU _ _) ?_
  rintro ⟨minLen, st2⟩
  refine notLookup2_bind (notLookup2_readU _ _) ?_
  rintro ⟨maxLen, st3⟩
  refine notLookup2_bind (notLookup2_readU _ _) ?_
  rintro ⟨valueLength, st4⟩
  refine notLookup2_bind (notLookup2_readU _ _) ?_
  rintro ⟨sequenceFlag, st5⟩
  exact notLookup2_quantvalsLoop _ _ _

/-- The lookup section never yields the lookup-type-2 error: the type field
is one bit, so its value is below 2 and the `= 2` branch is unreachable. -/
lemma notLookup2_rebuildLookup (entries dimensions : Nat) (st : RState) :
    NotLookup2 (rebuildLookup entries dimensions st) := by
  rw [rebuildLookup]
  refine notLookup2_bind_readU 1 st ?_
  intro lookupType st2 hlt
  simp only []
  split
  · exact notLookup2_ok _
  · split
    · exact notLookup2_rebuildLookup1 _ _ _
    · split
      · omega
      · exact notLookup2_error _ (by simp)

lemma notLookup2_rebuildSizeCheck (cbSize : Nat) (st : RState) :
    NotLookup2 (rebuildSizeCheck cbSize st) := by
  rw [rebuildSizeCheck]
  split
  · exact notLookup2_error _ (by simp)
  · exact notLookup2_ok _

/-- The rebuilder never produces the lookup-type-2 parse error, whatever the
input: the 1-bit lookup-type read makes the branch dead. -/
lemma rebuildCb_notLookup2 (s : Bitstream) (cbSize : Nat) :
    NotLookup2 (rebuildCb s cbSize) := by
  rw [rebuildCb]
  refine notLookup2_bind (notLookup2_readU _ _) ?_
  rintro ⟨dimensions, st⟩
  refine notLookup2_bind (notLookup2_readU _ _) ?_
  rintro ⟨entries, st⟩
  refine notLookup2_bind (notLookup2_readU _ _) ?_
  rintro ⟨ordered, st⟩
  refine notLookup2_bind (notLookup2_rebuildLengths _ _ _) ?_
  intro st2
  refine notLookup2_bind (notLookup2_rebuildLookup _ _ _) ?_
  intro st3
  exact notLookup2_rebuildSizeCheck _ _

/-- **C7, counterexample to the claim as stated.**  No compact codebook input
makes `rebuild` raise `parse_error_str("didn't expect lookup type 2")`: in
the compact form the lookup type is a 1-bit field (codebook.cpp:268-269), so
the value 2 cannot occur and the branch at codebook.cpp:298-301 is dead
code. -/
theorem rebuild_lookup2_unreachable :
    ¬ ∃ (s : Bitstream) (cbSize : Nat),
        rebuildCb s cbSize =
          .error (CbErr.parseError "didn't expect lookup type 2") := by
  rintro ⟨s, cbSize, h⟩
  exact rebuildCb_notLookup2 s cbSize h

/-- **C7 (amended).**  The compact-to-canonical rebuilder reads the lookup
type as a single bit, so only lookup types 0 and 1 can occur in the compact
form; whatever error `rebuild` raises, it is never the
`"didn't expect lookup type 2"` one. -/
theorem rebuild_lookup_type_one_bit (s : Bitstream) (cbSize : Nat) (e : CbErr)
    (h : rebuildCb s cbSize = .error e) :
    e ≠ CbErr.parseError "didn't expect lookup type 2" := fun hc =>
  rebuildCb_notLookup2 s cbSize (hc ▸ h)

/-- Witness for `rebuild_lookup_type_one_bit` at the empty input stream
(which fails with `Out_of_bits` on the very first read). -/
theorem rebuild_lookup_type_one_bit_witness :
    rebuildCb (Bitstream.init []) 0 = .error CbErr.outOfBits ∧
      CbErr.outOfBits ≠ CbErr.parseError "didn't expect lookup type 2" :=
  ⟨by rfl, rebuild_lookup_type_one_bit (Bitstream.init []) 0 CbErr.outOfBits (by rfl)⟩

/-! ## Modified audio packets: first-byte reconstruction
(`WwiseRiffVorbis::GenerateOgg`, wwriff.cpp:1155-1224, claim C1)

Each Wwise "modified" audio packet lost the Vorbis packet-type bit and the
two window bits; the converter reads the packet's first byte through a fresh
`Bitstream`, re-emits a 0 type bit, the `mode_bits`-wide mode number and —
for long-window modes — the previous/next window flags obtained by peeking
at the next packet, then the held-aside remaining bits of the byte. -/

/-- What the audio-packet loop knows about one packet: the byte at its
payload offset and its header-declared size. -/
structure ModPacket where
  firstByte : Nat
  size : Nat
deriving Repr, DecidableEq

/-- The 0/1 value of a tested bit, as the parity of the shifted number. -/
lemma ite_testBit_mod2 (b i : Nat) :
    (if b.testBit i = true then 1 else 0) = b >>> i % 2 := by
  have ht := Nat.toNat_testBit b i
  have hxd : b >>> i = b / 2 ^ i := Nat.shiftRight_eq_div_pow b i
  rw [hxd]
  cases hb2 : b.testBit i <;> simp [hb2] at ht ⊢ <;> omega

/-- Reading `m` bits from a mid-byte `Bitstream` state (`m ≤ bitsLeft ≤ 8`)
yields the next `m` LSB-first bits of the buffered byte, i.e.
`(b >>> (8 - bitsLeft)) % 2 ^ m`. -/
lemma readUintv_mid (b : Nat) : ∀ m l bytes t, m ≤ l → l ≤ 8 →
    Bitstream.readUintv m { bytes := bytes, bitBuffer := b, bitsLeft := l, totalBitsRead := t } =
      some ((b >>> (8 - l)) % 2 ^ m,
        { bytes := bytes, bitBuffer := b, bitsLeft := l - m, totalBitsRead := t + m }) := by
  intro m
  induction m with
  | zero =>
    intro l bytes t hm hl
    rw [Bitstream.readUintv]
    simp [Nat.mod_one]
  | succ m ih =>
    intro l bytes t hm hl
    obtain ⟨l0, rfl⟩ : ∃ l0, l = l0 + 1 := ⟨l - 1, by omega⟩
    rw [Bitstream.readUintv, Bitstream.getBit_mid bytes b t l0 (by omega)]
    simp only []
    rw [ih l0 bytes (t + 1) (by omega) (by omega)]
    simp only [Option.some.injEq, Prod.mk.injEq, Bitstream.mk.injEq]
    refine ⟨?_, trivial, trivial, by omega, by omega⟩
    rw [ite_testBit_mod2 b (7 - l0)]
    have h7 : 7 - l0 = 8 - (l0 + 1) := by omega
    have h8l : 8 - l0 = 8 - (l0 + 1) + 1 := by omega
    rw [h7, h8l, Nat.shiftRight_add,
      Nat.shiftRight_eq_div_pow (b >>> (8 - (l0 + 1))) 1, pow_one,
      show (2 : Nat) ^ (m + 1) = 2 * 2 ^ m from by ring, Nat.mod_mul]

/-- Reading `1 ≤ n ≤ 8` bits from a **fresh** `Bitstream` over `b :: rest`
yields the low `n` bits of `b`. -/
lemma readUintv_fresh (n b : Nat) (rest : List Nat) (h1 : 1 ≤ n) (h8 : n ≤ 8) :
    Bitstream.readUintv n (Bitstream.init (b :: rest)) =
      some (b % 2 ^ n,
        { bytes := rest, bitBuffer := b, bitsLeft := 8 - n, totalBitsRead := n }) := by
  obtain ⟨m, rfl⟩ : ∃ m, n = m + 1 := ⟨n - 1, by omega⟩
  have hfirst : (Bitstream.init (b :: rest)).getBit =
      some (b.testBit 0,
        { bytes := rest, bitBuffer := b, bitsLeft := 7, totalBitsRead := 1 }) := by
    simp only [Bitstream.init, Bitstream.getBit, if_true]
    rw [show (128 >>> 7 : Nat) = 2 ^ 0 by rfl, and_two_pow_bne]
  rw [Bitstream.readUintv, hfirst]
  simp only []
  rw [readUintv_mid b m 7 rest 1 (by omega) (by omega)]
  simp only [Option.some.injEq, Prod.mk.injEq, Bitstream.mk.injEq]
  refine ⟨?_, trivial, trivial, by omega, by omega⟩
  rw [ite_testBit_mod2 b 0, Nat.shiftRight_zero,
    show (8 : Nat) - 7 = 1 from by norm_num, Nat.shiftRight_eq_div_pow b 1, pow_one,
    show (2 : Nat) ^ (m + 1) = 2 * 2 ^ m from by ring, Nat.mod_mul]

/-- The next-packet peek (wwriff.cpp:1185-1206): `next_blockflag` defaults to
`false` when no next packet header fits or the next packet has size 0;
otherwise the next packet's first `mode_bits` bits name the next mode, whose
block flag is looked up. -/
def peekNextBlockflag (mb : Nat) (flags : List Bool) :
    Option ModPacket → Option Bool
  | none => some false
  | some np =>
    if np.size > 0 then
      match Bitstream.readUintv mb (Bitstream.init [np.firstByte]) with
      | none => none
      | some (nextMode, _) => some (flags.getD nextMode false)
    else
      some false

/-- First-byte reconstruction of one modified packet (wwriff.cpp:1155-1224),
faithful to the source: emits the type bit, the mode number, optionally the
window-flag pair, then the held-aside remainder; returns the emitted bits and
the **unconditionally** updated `prev_blockflag` (wwriff.cpp:1220). -/
def codeFirstByte (mb : Nat) (flags : List Bool) (prev : Bool)
    (pkt : ModPacket) (next : Option ModPacket) : Option (List Bool × Bool) :=
  if flags.isEmpty then none   -- "didn't load mode_blockflag"
  else
    match Bitstream.readUintv mb (Bitstream.init [pkt.firstByte]) with
    | none => none
    | some (modeNumber, s1) =>
      match Bitstream.readUintv (8 - mb) s1 with
      | none => none
      | some (remainder, _) =>
        if flags.getD modeNumber false then
          match peekNextBlockflag mb flags next with
          | none => none
          | some nextBlockflag =>
            some ([false] ++ lsbBits modeNumber mb ++ [prev, nextBlockflag] ++
                    lsbBits remainder (8 - mb),
                  flags.getD modeNumber false)
        else
          some ([false] ++ lsbBits modeNumber mb ++ lsbBits remainder (8 - mb),
                flags.getD modeNumber false)

/-- The audio-packet loop over all modified packets, threading
`prev_blockflag`; collects the emitted first-byte bits of every packet. -/
def codeModPackets (mb : Nat) (flags : List Bool) :
    Bool → List ModPacket → Option (List (List Bool))
  | _, [] => some []
  | prev, pkt :: rest =>
    match codeFirstByte mb flags prev pkt rest.head? with
    | none => none
    | some (out, prev2) =>
      match codeModPackets mb flags prev2 rest with
      | none => none
      | some outs => some (out :: outs)

/-- The reconstruction procedure exactly as claim C1 words it: packet type 0,
mode number, held-aside remainder, window-flag pair when
`mode_blockflag[mode_number]`, with the `prev_blockflag` update listed
**inside** that conditional (so after a short-window packet the claimed
procedure keeps the stale value). -/
def claimFirstBytes (mb : Nat) (flags : List Bool) :
    Bool → List ModPacket → List (List Bool)
  | _, [] => []
  | prev, pkt :: rest =>
    let modeNumber := pkt.firstByte % 2 ^ mb
    let remainder := pkt.firstByte / 2 ^ mb % 2 ^ (8 - mb)
    let flag := flags.getD modeNumber false
    let nextBlockflag :=
      match rest.head? with
      | none => false
      | some np =>
        if np.size = 0 then false else flags.getD (np.firstByte % 2 ^ mb) false
    let out := [false] ++ lsbBits modeNumber mb ++
      (if flag then [prev, nextBlockflag] else []) ++ lsbBits remainder (8 - mb)
    let prev2 := if flag then flag else prev
    out :: claimFirstBytes mb flags prev2 rest

/-- Claim C1 as amended: identical to `claimFirstBytes` except that
`prev_blockflag := mode_blockflag[mode_number]` is performed after **every**
modified packet, whether or not the window-flag pair was emitted
(wwriff.cpp:1220 sits outside the `if`). -/
def amendedFirstBytes (mb : Nat) (flags : List Bool) :
    Bool → List ModPacket → List (List Bool)
  | _, [] => []
  | prev, pkt :: rest =>
    let modeNumber := pkt.firstByte % 2 ^ mb
    let remainder := pkt.firstByte / 2 ^ mb % 2 ^ (8 - mb)
    let flag := flags.getD modeNumber false
    let nextBlockflag :=
      match rest.head? with
      | none => false
      | some np =>
        if np.size = 0 then false else flags.getD (np.firstByte % 2 ^ mb) false
    let out := [false] ++ lsbBits modeNumber mb ++
      (if flag then [prev, nextBlockflag] else []) ++ lsbBits remainder (8 - mb)
    out :: amendedFirstBytes mb flags flag rest

/-- The `Bitstream` state after reading `n ≤ 8` bits from a fresh stream over
`b :: rest` (proof helper). -/
def streamAfter (n b : Nat) (rest : List Nat) : Bitstream :=
  if n = 0 then Bitstream.init (b :: rest)
  else { bytes := rest, bitBuffer := b, bitsLeft := 8 - n, totalBitsRead := n }

lemma readUintv_init (n b : Nat) (rest : List Nat) (h : n ≤ 8) :
    Bitstream.readUintv n (Bitstream.init (b :: rest)) =
      some (b % 2 ^ n, streamAfter n b rest) := by
  rcases Nat.eq_zero_or_pos n with h0 | h1
  · subst h0
    rw [Bitstream.readUintv, streamAfter]
    simp [Nat.mod_one]
  · rw [readUintv_fresh n b rest h1 h, streamAfter, if_neg (by omega)]

lemma remainder_read (mb b : Nat) (rest : List Nat) (h : mb ≤ 8) :
    ∃ s2, Bitstream.readUintv (8 - mb) (streamAfter mb b rest) =
      some (b / 2 ^ mb % 2 ^ (8 - mb), s2) := by
  rcases Nat.eq_zero_or_pos mb with h0 | h1
  · subst h0
    rw [streamAfter, if_pos rfl]
    refine ⟨{ bytes := rest, bitBuffer := b, bitsLeft := 8 - (8 - 0),
              totalBitsRead := 8 - 0 }, ?_⟩
    rw [readUintv_fresh (8 - 0) b rest (by omega) (by omega)]
    simp
  · rw [streamAfter, if_neg (by omega)]
    refine ⟨{ bytes := rest, bitBuffer := b, bitsLeft := 8 - mb - (8 - mb),
              totalBitsRead := mb + (8 - mb) }, ?_⟩
    rw [readUintv_mid b (8 - mb) (8 - mb) rest mb (le_refl _) (by omega)]
    have hmb : 8 - (8 - mb) = mb := by omega
    rw [hmb, Nat.shiftRight_eq_div_pow]

lemma peekNextBlockflag_eq (mb : Nat) (flags : List Bool)
    (next : Option ModPacket) (h : mb ≤ 8) :
    peekNextBlockflag mb flags next =
      some (match next with
        | none => false
        | some np =>
          if np.size = 0 then false
          else flags.getD (np.firstByte % 2 ^ mb) false) := by
  cases next with
  | none => rfl
  | some np =>
    rw [peekNextBlockflag]
    by_cases hs : np.size = 0
    · rw [if_neg (by omega)]
      simp only []
      rw [if_pos hs]
    · rw [if_pos (by omega), readUintv_init mb np.firstByte [] h]
      simp only []
      rw [if_neg hs]

/-- One modified packet, with all bitstream reads evaluated: `codeFirstByte`
returns the emitted bits and the unconditionally updated `prev` flag. -/
lemma codeFirstByte_eq (mb : Nat) (flags : List Bool) (prev : Bool)
    (pkt : ModPacket) (next : Option ModPacket)
    (hmb : mb ≤ 8) (hflags : flags ≠ []) :
    codeFirstByte mb flags prev pkt next =
      some
        (([false] ++ lsbBits (pkt.firstByte % 2 ^ mb) mb ++
            (if flags.getD (pkt.firstByte % 2 ^ mb) false then
              [prev,
                match next with
                | none => false
                | some np =>
                  if np.size = 0 then false
                  else flags.getD (np.firstByte % 2 ^ mb) false]
            else []) ++
            lsbBits (pkt.firstByte / 2 ^ mb % 2 ^ (8 - mb)) (8 - mb)),
          flags.getD (pkt.firstByte % 2 ^ mb) false) := by
  rw [codeFirstByte, if_neg (by simp [List.isEmpty_iff, hflags])]
  rw [readUintv_init mb pkt.firstByte [] hmb]
  simp only []
  obtain ⟨s2, hs2⟩ := remainder_read mb pkt.firstByte [] hmb
  rw [hs2]
  simp only []
  by_cases hflag : flags.getD (pkt.firstByte % 2 ^ mb) false
  · rw [if_pos hflag, peekNextBlockflag_eq mb flags next hmb]
    simp only []
    rw [if_pos hflag]
  · rw [if_neg hflag, if_neg hflag]
    simp

/-- **C1 (amended).**  For every modified audio packet, the first byte is
reconstructed as the claim describes — 1-bit packet type 0, the
`mode_bits`-wide mode number re-emitted, the remaining `8 − mode_bits` input
bits held aside, and, when `mode_blockflag[mode_number]` holds, the two
window bits with `next_blockflag` peeked from the next packet (defaulting to
`false` when that packet is absent or has size 0) — except that
`prev_blockflag := mode_blockflag[mode_number]` is updated after **every**
packet, not only inside the long-window branch (wwriff.cpp:1220). -/
theorem modPackets_firstByte_amended (mb : Nat) (flags : List Bool)
    (hmb : mb ≤ 8) (hflags : flags ≠ []) :
    ∀ pkts prev,
      codeModPackets mb flags prev pkts =
        some (amendedFirstBytes mb flags prev pkts) := by
  intro pkts
  induction pkts with
  | nil => intro prev; rfl
  | cons pkt rest ih =>
    intro prev
    rw [codeModPackets, codeFirstByte_eq mb flags prev pkt rest.head? hmb hflags]
    simp only []
    rw [ih _]
    rfl

/-- Witness for `modPackets_firstByte_amended`: `mode_bits = 1`,
`mode_blockflag = [false, true]`, three one-byte packets with first bytes
`1, 0, 1`. -/
theorem modPackets_firstByte_amended_witness :
    codeModPackets 1 [false, true] false
        [⟨1, 1⟩, ⟨0, 1⟩, ⟨1, 1⟩] =
      some (amendedFirstBytes 1 [false, true] false
        [⟨1, 1⟩, ⟨0, 1⟩, ⟨1, 1⟩]) :=
  modPackets_firstByte_amended 1 [false, true] (by decide) (by decide)
    [⟨1, 1⟩, ⟨0, 1⟩, ⟨1, 1⟩] false

/-- **C1, counterexample to the claim as stated.**  With `mode_bits = 1`,
`mode_blockflag = [false, true]` and packets whose first bytes select modes
`1, 0, 1` (long, short, long), the code emits `prev_blockflag = false` on the
third packet (the update at wwriff.cpp:1220 ran after the short-window
packet), while the claimed procedure — whose `prev_blockflag` update sits
inside the long-window branch — would emit the stale `true`. -/
theorem modPackets_claim_counterexample :
    codeModPackets 1 [false, true] false
        [⟨1, 1⟩, ⟨0, 1⟩, ⟨1, 1⟩] ≠
      some (claimFirstBytes 1 [false, true] false
        [⟨1, 1⟩, ⟨0, 1⟩, ⟨1, 1⟩]) := by decide

/-! ## BNK event report: `wwtools::bnk::GetEventIdInfo` from `src/bnk.cpp`

The function walks the parsed HIRC section; we model the parsed objects with
exactly the fields bnk.cpp reads from the generated Kaitai accessors (the
generated `kaitai/structs/bnk.h` itself is not among the provided sources):
each object carries its 32-bit id and its variant payload. -/

/-- `bnk_t::action_type_t` as used by `GetEventActionType` (bnk.cpp:89-108):
the four labelled variants plus the numeric fallback. -/
inductive ActionType where
  | play
  | pause
  | stop
  | resume
  | other (code : Nat)
deriving Repr, DecidableEq

/-- `GetEventActionType` (bnk.cpp:89-108). -/
def getEventActionType : ActionType → String
  | .play => "play"
  | .pause => "pause"
  | .stop => "stop"
  | .resume => "resume"
  | .other code => toString code

/-- Payload of a HIRC `Event` object: its event-action ids. -/
structure EventData where
  eventActions : List Nat
deriving Repr, DecidableEq

/-- Payload of a HIRC `EventAction` object. -/
structure EventActionData where
  actionType : ActionType
  gameObjectId : Nat
deriving Repr, DecidableEq

/-- Payload of a HIRC `SoundEffectOrVoice` object. -/
structure SfxData where
  audioFileId : Nat
  includedOrStreamed : Nat
  soundStructure : List Nat
deriving Repr, DecidableEq

/-- A HIRC object: id plus typed payload (the `type()` byte dispatch of
bnk.cpp corresponds to the variant). -/
inductive HircObjData where
  | event (e : EventData)
  | eventAction (a : EventActionData)
  | sfx (s : SfxData)
  | otherObj
deriving Repr, DecidableEq

structure HircObj where
  id : Nat
  data : HircObjData
deriving Repr, DecidableEq

/-- The sections of a parsed BNK that `GetEventIdInfo` consults
(`FindSection` for `HIRC` and `STID`, bnk.cpp:203-209). -/
structure BnkSections where
  hirc : Option (List HircObj)
  stid : Option (List (Nat × String))

/-- Little-endian 32-bit read out of a byte list (the
`ss.read(reinterpret_cast<char*>(&parent_id), 4)` of bnk.cpp:82 on a
little-endian host). -/
def listRead32le (l : List Nat) (off : Nat) : Nat :=
  l.getD off 0 + 256 * (l.getD (off + 1) 0 +
    256 * (l.getD (off + 2) 0 + 256 * l.getD (off + 3) 0))

/-- `GetParentId` (bnk.cpp:54-85): offset 6, plus `1 + 7 * num_effects` when
effects are present; 0 when the blob is too short. -/
def getParentId (ss : List Nat) : Nat :=
  if ss.length < 2 then 0
  else
    let numEffects := ss.getD 1 0
    let parentIdOffset := if numEffects > 0 then 6 + 1 + numEffects * 7 else 6
    if ss.length < parentIdOffset + 4 then 0
    else listRead32le ss parentIdOffset

/-- `LookupEventName` (bnk.cpp:112-129). -/
def lookupEventName (stid : Option (List (Nat × String))) (eventId : Nat) : String :=
  match stid with
  | none => ""
  | some entries =>
    match entries.find? (fun e => e.1 = eventId) with
    | some e => e.2
    | none => ""

/-- Insertion into a `std::map<uint32_t, std::vector α>` keyed ascending:
`m[k].push_back v`. -/
def mapInsert {α : Type} (k : Nat) (v : α) :
    List (Nat × List α) → List (Nat × List α)
  | [] => [(k, [v])]
  | (k2, vs) :: rest =>
    if k < k2 then (k, [v]) :: (k2, vs) :: rest
    else if k = k2 then (k2, vs ++ [v]) :: rest
    else (k2, vs) :: mapInsert k v rest

/-- The inner scan of pass 1 (bnk.cpp:237-250): all `EventAction` objects
whose id matches `aid` and whose `game_object_id` is non-zero. -/
def findActions (objs : List HircObj) (aid : Nat) : List EventActionData :=
  objs.foldl
    (fun acc o =>
      match o.data with
      | .eventAction a =>
        if o.id = aid ∧ a.gameObjectId ≠ 0 then acc ++ [a] else acc
      | _ => acc)
    []

/-- Pass 1 (bnk.cpp:214-252): count every `Event`, and — for events passing
the id filter — collect their referenced event actions into
`event_to_event_actions`. -/
def pass1 (objs : List HircObj) (inEventId : String) :
    Nat × List (Nat × List EventActionData) :=
  objs.foldl
    (fun acc obj =>
      match obj.data with
      | .event e =>
        let numEvents := acc.1 + 1
        if inEventId ≠ "" ∧ toString obj.id ≠ inEventId then (numEvents, acc.2)
        else
          (numEvents,
            e.eventActions.foldl
              (fun m aid => (findActions objs aid).foldl
                (fun m a => mapInsert obj.id a m) m)
              acc.2)
      | _ => acc)
    (0, [])

/-- An event-action/SFX match of pass 2 (`EventSFX`, bnk.cpp:19-24). -/
structure EventSFX where
  actionType : ActionType
  sfx : SfxData
  isChild : Bool
deriving Repr, DecidableEq

/-- Pass 2 (bnk.cpp:254-282): match every `SoundEffectOrVoice` against the
collected event actions by direct id or parent id. -/
def pass2 (objs : List HircObj)
    (eventToActions : List (Nat × List EventActionData)) :
    List (Nat × List EventSFX) :=
  objs.foldl
    (fun m obj =>
      match obj.data with
      | .sfx s =>
        let parentId := getParentId s.soundStructure
        eventToActions.foldl
          (fun m ea =>
            ea.2.foldl
              (fun m a =>
                if a.gameObjectId ≠ obj.id ∧ a.gameObjectId ≠ parentId then m
                else
                  mapInsert ea.1
                    { actionType := a.actionType, sfx := s,
                      isChild := a.gameObjectId = parentId } m)
              m)
          m
      | _ => m)
    []

/-- Pass 3 (bnk.cpp:284-302): render the report. -/
def pass3 (stid : Option (List (Nat × String))) (numEvents : Nat)
    (eventToSfxs : List (Nat × List EventSFX)) : String :=
  "Found " ++ toString numEvents ++ " event(s)\n" ++
    toString eventToSfxs.length ++ " of them point to files in this BNK\n\n" ++
    String.join (eventToSfxs.map (fun es =>
      let eventName := lookupEventName stid es.1
      toString es.1 ++ " (" ++
        (if eventName = "" then "can't find name" else eventName) ++ ")\n" ++
      String.join (es.2.map (fun esfx =>
        "\t" ++ getEventActionType esfx.actionType ++ " " ++
          toString esfx.sfx.audioFileId ++
          (if esfx.isChild then " (child)" else "") ++ "\n")) ++
      "\n"))

/-- `GetEventIdInfo` (bnk.cpp:197-305): empty string without a `HIRC`
section, otherwise the three passes. -/
def getEventIdInfo (bnk : BnkSections) (inEventId : String) : String :=
  match bnk.hirc with
  | none => ""
  | some objs =>
    let p1 := pass1 objs inEventId
    let sfxs := pass2 objs p1.2
    pass3 bnk.stid p1.1 sfxs

/-- **C9.** For every BNK whose `HIRC` section is present but holds zero
objects, and for every event-id filter, `GetEventIdInfo` returns exactly
`"Found 0 event(s)\n0 of them point to files in this BNK\n\n"`. -/
theorem eventIdInfo_empty_hirc (stid : Option (List (Nat × String)))
    (inEventId : String) :
    getEventIdInfo { hirc := some [], stid := stid } inEventId =
      "Found 0 event(s)\n0 of them point to files in this BNK\n\n" := by
  unfold getEventIdInfo
  simp only []
  rw [show pass1 ([] : List HircObj) inEventId = (0, []) from rfl]
  rfl

/-! ## WEM constructor parse: `WwiseRiffVorbis::WwiseRiffVorbis`
(wwriff.cpp:152-483)

The constructor is modelled as a pipeline of phases over a parse state, in
source order: RIFF header, chunk walk, required-chunk checks, `fmt ` fields,
`cue `, `smpl`, `vorb`, and the final loop validation.  C++ `long` members
initialised to `-1` are `Int`; stream reads past the buffer become the
`truncated` error (the C++ stream would silently fail there — no claim input
exercises that path).  The `m_inline_codebooks` / `m_full_setup` constructor
flags are only stored, never read during parsing, and are omitted. -/

inductive WemErr where
  | parseError (msg : String)
  | truncated
deriving Repr, DecidableEq

/-- `ForcePacketFormat` (wwriff.h:20-25). -/
inductive ForcePacketFormat where
  | kNoForcePacketFormat
  | kForceModPackets
  | kForceNoModPackets
deriving Repr, DecidableEq

/-- The constructor's member state (wwriff.h:38-94). -/
structure WemState where
  littleEndian : Bool
  fileSize : Int
  riffSize : Int
  fmtOffset : Int
  cueOffset : Int
  listOffset : Int
  smplOffset : Int
  vorbOffset : Int
  dataOffset : Int
  fmtSize : Int
  cueSize : Int
  listSize : Int
  smplSize : Int
  vorbSize : Int
  dataSize : Int
  channels : Nat
  sampleRate : Nat
  avgBytesPerSecond : Nat
  extUnk : Nat
  subtype : Nat
  cueCount : Nat
  loopCount : Nat
  loopStart : Nat
  loopEnd : Nat
  sampleCount : Nat
  setupPacketOffset : Nat
  firstAudioPacketOffset : Nat
  uid : Nat
  blocksize0Pow : Nat
  blocksize1Pow : Nat
  headerTriadPresent : Bool
  oldPacketHeaders : Bool
  noGranule : Bool
  modPackets : Bool
  seekPos : Int      -- models the stream position between vorb reads
deriving Repr, DecidableEq

/-- Member initialisers (wwriff.h:40-91). -/
def initState : WemState :=
  { littleEndian := true, fileSize := -1, riffSize := -1,
    fmtOffset := -1, cueOffset := -1, listOffset := -1, smplOffset := -1,
    vorbOffset := -1, dataOffset := -1,
    fmtSize := -1, cueSize := -1, listSize := -1, smplSize := -1,
    vorbSize := -1, dataSize := -1,
    channels := 0, sampleRate := 0, avgBytesPerSecond := 0,
    extUnk := 0, subtype := 0, cueCount := 0,
    loopCount := 0, loopStart := 0, loopEnd := 0, sampleCount := 0,
    setupPacketOffset := 0, firstAudioPacketOffset := 0, uid := 0,
    blocksize0Pow := 0, blocksize1Pow := 0,
    headerTriadPresent := false, oldPacketHeaders := false,
    noGranule := false, modPackets := false, seekPos := 0 }

def byteAt (bytes : List Nat) (off : Int) : Option Nat :=
  if off < 0 then none else bytes[off.toNat]?

/-- `Read16Le` / `Read16Be` (bitstream.h:53-68, 121-137) at a buffer
offset. -/
def read16At (le : Bool) (bytes : List Nat) (off : Int) : Option Nat := do
  let b0 ← byteAt bytes off
  let b1 ← byteAt bytes (off + 1)
  pure (if le then b0 + 256 * b1 else b1 + 256 * b0)

/-- `Read32Le` / `Read32Be` (bitstream.h:19-35, 87-103) at a buffer
offset. -/
def read32At (le : Bool) (bytes : List Nat) (off : Int) : Option Nat := do
  let b0 ← byteAt bytes off
  let b1 ← byteAt bytes (off + 1)
  let b2 ← byteAt bytes (off + 2)
  let b3 ← byteAt bytes (off + 3)
  pure (if le then b0 + 256 * (b1 + 256 * (b2 + 256 * b3))
        else b3 + 256 * (b2 + 256 * (b1 + 256 * b0)))

/-- `is.read(buf, n)` at a buffer offset. -/
def bytesAt (bytes : List Nat) (off : Int) : Nat → Option (List Nat)
  | 0 => some []
  | n + 1 => do
    let b ← byteAt bytes off
    let rest ← bytesAt bytes (off + 1) n
    pure (b :: rest)

def liftR {α : Type} : Option α → Except WemErr α
  | none => .error .truncated
  | some a => .ok a

/-- The RIFF/RIFX magic dispatch (wwriff.cpp:170-184): RIFX ⇒ big-endian,
RIFF ⇒ little-endian, else `"missing RIFF"`. -/
def parseRiffHead (bytes : List Nat) : Except WemErr Bool := do
  let riffHead ← liftR (bytesAt bytes 0 4)
  if riffHead ≠ [0x52, 0x49, 0x46, 0x58] then
    if riffHead ≠ [0x52, 0x49, 0x46, 0x46] then
      .error (.parseError "missing RIFF")
    else
      pure true
  else
    pure false

/-- RIFF header phase (wwriff.cpp:159-213): magic, endianness, declared size
vs. buffer size, `WAVE`. -/
def readRiffHead (bytes : List Nat) (st : WemState) : Except WemErr WemState := do
  let le ← parseRiffHead bytes
  let sz ← liftR (read32At le bytes 4)
  if ((sz : Int) + 8) > (bytes.length : Int) then
    .error (.parseError ("RIFF truncated (header claims " ++ toString ((sz : Int) + 8) ++
      " bytes but only " ++ toString (bytes.length : Int) ++
      " available, this is likely a streaming/prefetch WEM" ++
      " that requires the full .wem file)"))
  else do
    let waveHead ← liftR (bytesAt bytes 8 4)
    if waveHead ≠ [0x57, 0x41, 0x56, 0x45] then
      .error (.parseError "missing WAVE")
    else
      pure { st with littleEndian := le, fileSize := (bytes.length : Int),
                     riffSize := (sz : Int) + 8 }

/-- Record one recognised chunk tag (wwriff.cpp:230-259). -/
def recordChunk (st : WemState) (ctype : List Nat) (chunkOffset csize : Nat) :
    WemState :=
  if ctype = [0x66, 0x6D, 0x74, 0x20] then
    { st with fmtOffset := (chunkOffset : Int) + 8, fmtSize := (csize : Int) }
  else if ctype = [0x63, 0x75, 0x65, 0x20] then
    { st with cueOffset := (chunkOffset : Int) + 8, cueSize := (csize : Int) }
  else if ctype = [0x4C, 0x49, 0x53, 0x54] then
    { st with listOffset := (chunkOffset : Int) + 8, listSize := (csize : Int) }
  else if ctype = [0x73, 0x6D, 0x70, 0x6C] then
    { st with smplOffset := (chunkOffset : Int) + 8, smplSize := (csize : Int) }
  else if ctype = [0x76, 0x6F, 0x72, 0x62] then
    { st with vorbOffset := (chunkOffset : Int) + 8, vorbSize := (csize : Int) }
  else if ctype = [0x64, 0x61, 0x74, 0x61] then
    { st with dataOffset := (chunkOffset : Int) + 8, dataSize := (csize : Int) }
  else st

/-- The chunk walk (wwriff.cpp:216-262): offsets `12, 12+8+size, …` until
`riff_size`, recording `{offset, size}` per recognised tag.  Every iteration
advances the offset by at least 8, so the caller's fuel of `riff_size + 1`
always suffices; `fuel = 0` is unreachable and yields the generic stream
failure. -/
def chunkWalk (le : Bool) (bytes : List Nat) (riffSize : Nat) :
    Nat → Nat → WemState → Except WemErr (Nat × WemState)
  | 0, _, _ => .error .truncated
  | fuel + 1, chunkOffset, st =>
    if chunkOffset < riffSize then
      if chunkOffset + 8 > riffSize then
        .error (.parseError "chunk header truncated")
      else
        match bytesAt bytes (chunkOffset : Int) 4,
            read32At le bytes ((chunkOffset : Int) + 4) with
        | some ctype, some csize =>
          chunkWalk le bytes riffSize fuel (chunkOffset + 8 + csize)
            (recordChunk st ctype chunkOffset csize)
        | _, _ => .error .truncated
    else
      .ok (chunkOffset, st)

/-- Chunk phase: walk, then the post-walk `"chunk truncated"` check
(wwriff.cpp:264-267). -/
def runChunks (bytes : List Nat) (st : WemState) : Except WemErr WemState := do
  let r ← chunkWalk st.littleEndian bytes st.riffSize.toNat
    (st.riffSize.toNat + 1) 12 st
  if (r.1 : Int) > st.riffSize then
    .error (.parseError "chunk truncated")
  else
    pure r.2

/-- Required-chunk checks and the `fmt_size == 0x42` vorb fake-out
(wwriff.cpp:269-290).  Note the first check uses `&&`, exactly as the
source does. -/
def checkChunks (st : WemState) : Except WemErr WemState :=
  if st.fmtOffset = -1 ∧ st.dataOffset = -1 then
    .error (.parseError "expected fmt, data chunks")
  else if st.vorbOffset = -1 ∧ st.fmtSize ≠ 0x42 then
    .error (.parseError "expected 0x42 fmt if vorb missing")
  else if st.vorbOffset ≠ -1 ∧ st.fmtSize ≠ 0x28 ∧ st.fmtSize ≠ 0x18 ∧
      st.fmtSize ≠ 0x12 then
    .error (.parseError "bad fmt size")
  else if st.vorbOffset = -1 ∧ st.fmtSize = 0x42 then
    .ok { st with vorbOffset := st.fmtOffset + 0x18 }
  else
    .ok st

/-- Fixed `fmt ` fields (wwriff.cpp:292-311). -/
def parseFmtFixed (bytes : List Nat) (st : WemState) : Except WemErr WemState := do
  let codec ← liftR (read16At st.littleEndian bytes st.fmtOffset)
  if codec ≠ 0xFFFF then
    .error (.parseError "bad codec id")
  else do
    let ch ← liftR (read16At st.littleEndian bytes (st.fmtOffset + 2))
    let sr ← liftR (read32At st.littleEndian bytes (st.fmtOffset + 4))
    let avg ← liftR (read32At st.littleEndian bytes (st.fmtOffset + 8))
    let ba ← liftR (read16At st.littleEndian bytes (st.fmtOffset + 12))
    if ba ≠ 0 then
      .error (.parseError "bad block align")
    else do
      let bps ← liftR (read16At st.littleEndian bytes (st.fmtOffset + 14))
      if bps ≠ 0 then
        .error (.parseError "expected 0 bps")
      else do
        let extra ← liftR (read16At st.littleEndian bytes (st.fmtOffset + 16))
        if st.fmtSize - 0x12 ≠ (extra : Int) then
          .error (.parseError "bad extra fmt length")
        else
          pure { st with channels := ch, sampleRate := sr,
                         avgBytesPerSecond := avg }

/-- Extra `fmt ` fields (wwriff.cpp:313-321). -/
def parseFmtExtra (bytes : List Nat) (st : WemState) : Except WemErr WemState :=
  if st.fmtSize - 0x12 ≥ 2 then do
    let eu ← liftR (read16At st.littleEndian bytes (st.fmtOffset + 0x12))
    if st.fmtSize - 0x12 ≥ 6 then do
      let sub ← liftR (read32At st.littleEndian bytes (st.fmtOffset + 0x14))
      pure { st with extUnk := eu, subtype := sub }
    else
      pure { st with extUnk := eu }
  else
    pure st

/-- The `fmt_size == 0x28` GUID check (wwriff.cpp:323-333). -/
def parseFmtGuid (bytes : List Nat) (st : WemState) : Except WemErr WemState :=
  if st.fmtSize = 0x28 then do
    let guid ← liftR (bytesAt bytes (st.fmtOffset + 0x18) 16)
    if guid ≠ [1, 0, 0, 0, 0, 0, 0x10, 0, 0x80, 0, 0, 0xAA, 0, 0x38, 0x9B, 0x71] then
      .error (.parseError "expected signature in extra fmt?")
    else
      pure st
  else
    pure st

/-- `cue ` (wwriff.cpp:335-340). -/
def parseCue (bytes : List Nat) (st : WemState) : Except WemErr WemState :=
  if st.cueOffset ≠ -1 then do
    let cc ← liftR (read32At st.littleEndian bytes st.cueOffset)
    pure { st with cueCount := cc }
  else
    pure st

/-- `smpl` (wwriff.cpp:342-356): `loop_count` at `+0x1C` must be 1;
`loop_start` at `+0x2C`, `loop_end` at `+0x30`. -/
def parseSmpl (bytes : List Nat) (st : WemState) : Except WemErr WemState :=
  if st.smplOffset ≠ -1 then do
    let lc ← liftR (read32At st.littleEndian bytes (st.smplOffset + 0x1C))
    if lc ≠ 1 then
      .error (.parseError "expected one loop")
    else do
      let lstart ← liftR (read32At st.littleEndian bytes (st.smplOffset + 0x2C))
      let lend ← liftR (read32At st.littleEndian bytes (st.smplOffset + 0x30))
      pure { st with loopCount := lc, loopStart := lstart, loopEnd := lend }
  else
    pure st

/-- `vorb` size dispatch and `sample_count` (wwriff.cpp:358-374). -/
def parseVorbSize (bytes : List Nat) (st : WemState) : Except WemErr WemState :=
  if st.vorbSize = -1 ∨ st.vorbSize = 0x28 ∨ st.vorbSize = 0x2A ∨
      st.vorbSize = 0x2C ∨ st.vorbSize = 0x32 ∨ st.vorbSize = 0x34 then do
    let sc ← liftR (read32At st.littleEndian bytes st.vorbOffset)
    pure { st with sampleCount := sc }
  else
    .error (.parseError "bad vorb size")

/-- `no_granule` / `mod_packets` detection and the seek before the packet
offsets (wwriff.cpp:376-396). -/
def parseVorbFlags (bytes : List Nat) (st : WemState) : Except WemErr WemState :=
  if st.vorbSize = -1 ∨ st.vorbSize = 0x2A then do
    let modSignal ← liftR (read32At st.littleEndian bytes (st.vorbOffset + 0x4))
    if modSignal ≠ 0x4A ∧ modSignal ≠ 0x4B ∧ modSignal ≠ 0x69 ∧
        modSignal ≠ 0x70 then
      pure { st with noGranule := true, modPackets := true,
                     seekPos := st.vorbOffset + 0x10 }
    else
      pure { st with noGranule := true, seekPos := st.vorbOffset + 0x10 }
  else
    pure { st with seekPos := st.vorbOffset + 0x18 }

/-- Command-line packet-format override (wwriff.cpp:398-405). -/
def forceOverride (fpf : ForcePacketFormat) (st : WemState) :
    Except WemErr WemState :=
  match fpf with
  | .kForceNoModPackets => .ok { st with modPackets := false }
  | .kForceModPackets => .ok { st with modPackets := true }
  | .kNoForcePacketFormat => .ok st

/-- `setup_packet_offset` / `first_audio_packet_offset`
(wwriff.cpp:407-408). -/
def parseVorbOffsets (bytes : List Nat) (st : WemState) :
    Except WemErr WemState := do
  let spo ← liftR (read32At st.littleEndian bytes st.seekPos)
  let fapo ← liftR (read32At st.littleEndian bytes (st.seekPos + 4))
  pure { st with setupPacketOffset := spo, firstAudioPacketOffset := fapo,
                 seekPos := st.seekPos + 8 }

/-- The second seek switch (wwriff.cpp:410-425). -/
def parseVorbSeek2 (st : WemState) : Except WemErr WemState :=
  if st.vorbSize = -1 ∨ st.vorbSize = 0x2A then
    .ok { st with seekPos := st.vorbOffset + 0x24 }
  else if st.vorbSize = 0x32 ∨ st.vorbSize = 0x34 then
    .ok { st with seekPos := st.vorbOffset + 0x2C }
  else
    .ok st

/-- Header-triad flags or uid/blocksize reads (wwriff.cpp:427-447). -/
def parseVorbTail (bytes : List Nat) (st : WemState) : Except WemErr WemState :=
  if st.vorbSize = 0x28 ∨ st.vorbSize = 0x2C then
    .ok { st with headerTriadPresent := true, oldPacketHeaders := true }
  else if st.vorbSize = -1 ∨ st.vorbSize = 0x2A ∨ st.vorbSize = 0x32 ∨
      st.vorbSize = 0x34 then do
    let uid ← liftR (read32At st.littleEndian bytes st.seekPos)
    let b0 ← liftR (byteAt bytes (st.seekPos + 4))
    let b1 ← liftR (byteAt bytes (st.seekPos + 5))
    pure { st with uid := uid, blocksize0Pow := b0, blocksize1Pow := b1 }
  else
    .ok st

/-- The loop-end adjustment (wwriff.cpp:452-459): `0` means "to the end"
(use `sample_count`), otherwise Wwise stored an inclusive end (add 1).
`m_loop_end` is a `uint32_t` (wwriff.h:75), so the increment wraps modulo
`2^32`: a stored `loop_end` of `0xFFFFFFFF` adjusts to `0`. -/
def adjustLoopEnd (loopEnd sampleCount : Nat) : Nat :=
  if loopEnd = 0 then sampleCount else (loopEnd + 1) % 4294967296

/-- Loop validation (wwriff.cpp:449-466). -/
def checkLoops (st : WemState) : Except WemErr WemState :=
  if st.loopCount ≠ 0 then
    if st.loopStart ≥ st.sampleCount ∨
        adjustLoopEnd st.loopEnd st.sampleCount > st.sampleCount ∨
        st.loopStart > adjustLoopEnd st.loopEnd st.sampleCount then
      .error (.parseError "loops out of range")
    else
      .ok { st with loopEnd := adjustLoopEnd st.loopEnd st.sampleCount }
  else
    .ok st

/-- The whole constructor parse (wwriff.cpp:152-483).  The trailing
`m_subtype` switch (wwriff.cpp:468-482) has no effect on any member and is
omitted. -/
def parseWem (bytes : List Nat) (fpf : ForcePacketFormat) :
    Except WemErr WemState :=
  readRiffHead bytes initState >>= runChunks bytes >>= checkChunks >>=
    parseFmtFixed bytes >>= parseFmtExtra bytes >>= parseFmtGuid bytes >>=
    parseCue bytes >>= parseSmpl bytes >>= parseVorbSize bytes >>=
    parseVorbFlags bytes >>= forceOverride fpf >>= parseVorbOffsets bytes >>=
    parseVorbSeek2 >>= parseVorbTail bytes >>= checkLoops

/-! ### Inversion lemmas for the parse pipeline -/

lemma bind_ok_inv {α β : Type} {ma : Except WemErr α} {f : α → Except WemErr β}
    {b : β} (h : ma >>= f = .ok b) : ∃ a, ma = .ok a ∧ f a = .ok b := by
  cases ma with
  | error e =>
    rw [show (Except.error e : Except WemErr α) >>= f = Except.error e from rfl] at h
    cases h
  | ok a => exact ⟨a, rfl, h⟩

lemma recordChunk_loopCount (st : WemState) (ctype : List Nat)
    (chunkOffset csize : Nat) :
    (recordChunk st ctype chunkOffset csize).loopCount = st.loopCount := by
  unfold recordChunk
  repeat' split
  all_goals rfl

lemma chunkWalk_loopCount (le : Bool) (bytes : List Nat) (riffSize : Nat) :
    ∀ fuel chunkOffset st r,
      chunkWalk le bytes riffSize fuel chunkOffset st = .ok r →
      r.2.loopCount = st.loopCount := by
  intro fuel
  induction fuel with
  | zero => intro _ _ _ h; cases h
  | succ fuel ih =>
    intro chunkOffset st r h
    rw [chunkWalk] at h
    split at h
    · split at h
      · cases h
      · split at h
        · have := ih _ _ _ h
          rw [this, recordChunk_loopCount]
        · cases h
    · have := Except.ok.inj h
      rw [← this]

lemma readRiffHead_loopCount {bytes : List Nat} {st st2 : WemState}
    (h : readRiffHead bytes st = .ok st2) : st2.loopCount = st.loopCount := by
  rw [readRiffHead] at h
  obtain ⟨le, _, h⟩ := bind_ok_inv h
  obtain ⟨sz, _, h⟩ := bind_ok_inv h
  split at h
  · cases h
  · obtain ⟨wh, _, h⟩ := bind_ok_inv h
    split at h
    · cases h
    · have := Except.ok.inj h
      rw [← this]

lemma runChunks_loopCount {bytes : List Nat} {st st2 : WemState}
    (h : runChunks bytes st = .ok st2) : st2.loopCount = st.loopCount := by
  rw [runChunks] at h
  obtain ⟨r, hr, h⟩ := bind_ok_inv h
  split at h
  · cases h
  · have := Except.ok.inj h
    rw [← this]
    exact chunkWalk_loopCount _ _ _ _ _ _ _ hr

lemma checkChunks_loopCount {st st2 : WemState}
    (h : checkChunks st = .ok st2) : st2.loopCount = st.loopCount := by
  rw [checkChunks] at h
  split at h
  · cases h
  · split at h
    · cases h
    · split at h
      · cases h
      · split at h <;> · have := Except.ok.inj h; rw [← this]

lemma parseFmtFixed_loopCount {bytes : List Nat} {st st2 : WemState}
    (h : parseFmtFixed bytes st = .ok st2) : st2.loopCount = st.loopCount := by
  rw [parseFmtFixed] at h
  obtain ⟨codec, _, h⟩ := bind_ok_inv h
  split at h
  · cases h
  · obtain ⟨ch, _, h⟩ := bind_ok_inv h
    obtain ⟨sr, _, h⟩ := bind_ok_inv h
    obtain ⟨avg, _, h⟩ := bind_ok_inv h
    obtain ⟨ba, _, h⟩ := bind_ok_inv h
    split at h
    · cases h
    · obtain ⟨bps, _, h⟩ := bind_ok_inv h
      split at h
      · cases h
      · obtain ⟨extra, _, h⟩ := bind_ok_inv h
        split at h
        · cases h
        · have := Except.ok.inj h; rw [← this]

lemma parseFmtExtra_loopCount {bytes : List Nat} {st st2 : WemState}
    (h : parseFmtExtra bytes st = .ok st2) : st2.loopCount = st.loopCount := by
  rw [parseFmtExtra] at h
  split at h
  · obtain ⟨eu, _, h⟩ := bind_ok_inv h
    split at h
    · obtain ⟨sub, _, h⟩ := bind_ok_inv h
      have := Except.ok.inj h; rw [← this]
    · have := Except.ok.inj h; rw [← this]
  · have := Except.ok.inj h; rw [← this]

lemma parseFmtGuid_loopCount {bytes : List Nat} {st st2 : WemState}
    (h : parseFmtGuid bytes st = .ok st2) : st2.loopCount = st.loopCount := by
  rw [parseFmtGuid] at h
  split at h
  · obtain ⟨guid, _, h⟩ := bind_ok_inv h
    split at h
    · cases h
    · have := Except.ok.inj h; rw [← this]
  · have := Except.ok.inj h; rw [← this]

lemma parseCue_loopCount {bytes : List Nat} {st st2 : WemState}
    (h : parseCue bytes st = .ok st2) : st2.loopCount = st.loopCount := by
  rw [parseCue] at h
  split at h
  · obtain ⟨cc, _, h⟩ := bind_ok_inv h
    have := Except.ok.inj h; rw [← this]
  · have := Except.ok.inj h; rw [← this]

lemma parseSmpl_ok {bytes : List Nat} {st st2 : WemState}
    (h : parseSmpl bytes st = .ok st2) :
    st2.smplOffset = st.smplOffset ∧
      (st.smplOffset ≠ -1 → st2.loopCount = 1) ∧
      (st.smplOffset = -1 → st2.loopCount = st.loopCount) := by
  rw [parseSmpl] at h
  split at h
  · obtain ⟨lc, _, h⟩ := bind_ok_inv h
    split at h
    · cases h
    · obtain ⟨ls2, _, h⟩ := bind_ok_inv h
      obtain ⟨le2, _, h⟩ := bind_ok_inv h
      have hst := Except.ok.inj h
      subst hst
      refine ⟨rfl, fun _ => ?_, fun hc => by omega⟩
      show lc = 1
      omega
  · have hst := Except.ok.inj h
    subst hst
    exact ⟨rfl, fun hne => by omega, fun _ => rfl⟩

lemma parseVorbSize_meta {bytes : List Nat} {st st2 : WemState}
    (h : parseVorbSize bytes st = .ok st2) :
    st2.smplOffset = st.smplOffset ∧ st2.loopCount = st.loopCount := by
  rw [parseVorbSize] at h
  split at h
  · obtain ⟨sc, _, h⟩ := bind_ok_inv h
    have hst := Except.ok.inj h
    subst hst
    exact ⟨rfl, rfl⟩
  · cases h

lemma parseVorbFlags_meta {bytes : List Nat} {st st2 : WemState}
    (h : parseVorbFlags bytes st = .ok st2) :
    st2.smplOffset = st.smplOffset ∧ st2.loopCount = st.loopCount := by
  rw [parseVorbFlags] at h
  split at h
  · obtain ⟨ms, _, h⟩ := bind_ok_inv h
    split at h
    · have hst := Except.ok.inj h
      subst hst
      exact ⟨rfl, rfl⟩
    · have hst := Except.ok.inj h
      subst hst
      exact ⟨rfl, rfl⟩
  · have hst := Except.ok.inj h
    subst hst
    exact ⟨rfl, rfl⟩

lemma forceOverride_meta {fpf : ForcePacketFormat} {st st2 : WemState}
    (h : forceOverride fpf st = .ok st2) :
    st2.smplOffset = st.smplOffset ∧ st2.loopCount = st.loopCount := by
  cases fpf <;>
    · rw [forceOverride] at h
      have hst := Except.ok.inj h
      subst hst
      exact ⟨rfl, rfl⟩

lemma parseVorbOffsets_meta {bytes : List Nat} {st st2 : WemState}
    (h : parseVorbOffsets bytes st = .ok st2) :
    st2.smplOffset = st.smplOffset ∧ st2.loopCount = st.loopCount := by
  rw [parseVorbOffsets] at h
  obtain ⟨spo, _, h⟩ := bind_ok_inv h
  obtain ⟨fapo, _, h⟩ := bind_ok_inv h
  have hst := Except.ok.inj h
  subst hst
  exact ⟨rfl, rfl⟩

lemma parseVorbSeek2_meta {st st2 : WemState}
    (h : parseVorbSeek2 st = .ok st2) :
    st2.smplOffset = st.smplOffset ∧ st2.loopCount = st.loopCount := by
  rw [parseVorbSeek2] at h
  split at h
  · have hst := Except.ok.inj h
    subst hst
    exact ⟨rfl, rfl⟩
  · split at h <;>
      · have hst := Except.ok.inj h
        subst hst
        exact ⟨rfl, rfl⟩

lemma parseVorbTail_meta {bytes : List Nat} {st st2 : WemState}
    (h : parseVorbTail bytes st = .ok st2) :
    st2.smplOffset = st.smplOffset ∧ st2.loopCount = st.loopCount := by
  rw [parseVorbTail] at h
  split at h
  · have hst := Except.ok.inj h
    subst hst
    exact ⟨rfl, rfl⟩
  · split at h
    · obtain ⟨uid, _, h⟩ := bind_ok_inv h
      obtain ⟨b0, _, h⟩ := bind_ok_inv h
      obtain ⟨b1, _, h⟩ := bind_ok_inv h
      have hst := Except.ok.inj h
      subst hst
      exact ⟨rfl, rfl⟩
    · have hst := Except.ok.inj h
      subst hst
      exact ⟨rfl, rfl⟩

lemma checkLoops_ok {st st2 : WemState} (h : checkLoops st = .ok st2) :
    st2.smplOffset = st.smplOffset ∧ st2.loopCount = st.loopCount ∧
      (st2.loopCount ≠ 0 →
        st2.loopStart ≤ st2.loopEnd ∧ st2.loopEnd ≤ st2.sampleCount ∧
        st2.loopStart < st2.sampleCount ∧
        st2.loopEnd = adjustLoopEnd st.loopEnd st.sampleCount) := by
  rw [checkLoops] at h
  split at h
  · split at h
    · cases h
    · have hst := Except.ok.inj h
      subst hst
      refine ⟨rfl, rfl, fun _ => ?_⟩
      show st.loopStart ≤ adjustLoopEnd st.loopEnd st.sampleCount ∧
        adjustLoopEnd st.loopEnd st.sampleCount ≤ st.sampleCount ∧
        st.loopStart < st.sampleCount ∧
        adjustLoopEnd st.loopEnd st.sampleCount =
          adjustLoopEnd st.loopEnd st.sampleCount
      omega
  · have hst := Except.ok.inj h
    subst hst
    exact ⟨rfl, rfl, fun hc => by omega⟩

/-- Everything claims C5 and C8 need from a successful constructor parse:
the `smpl`-implies-one-loop fact, the 0/1 range of `loop_count`, the loop
ordering invariants of the adjusted values, and the provenance of the
adjusted `loop_end`. -/
lemma parseWem_ok_inv {bytes : List Nat} {fpf : ForcePacketFormat}
    {st : WemState} (h : parseWem bytes fpf = .ok st) :
    (st.smplOffset ≠ -1 → st.loopCount = 1) ∧
    (st.loopCount = 0 ∨ st.loopCount = 1) ∧
    (st.loopCount ≠ 0 →
      st.loopStart ≤ st.loopEnd ∧ st.loopEnd ≤ st.sampleCount ∧
      st.loopStart < st.sampleCount) ∧
    (∃ st0, checkLoops st0 = .ok st ∧
      (st.loopCount ≠ 0 →
        st.loopEnd = adjustLoopEnd st0.loopEnd st0.sampleCount)) := by
  rw [parseWem] at h
  obtain ⟨a14, h, hCL⟩ := bind_ok_inv h
  obtain ⟨a13, h, hT⟩ := bind_ok_inv h
  obtain ⟨a12, h, hSk⟩ := bind_ok_inv h
  obtain ⟨a11, h, hOf⟩ := bind_ok_inv h
  obtain ⟨a10, h, hFo⟩ := bind_ok_inv h
  obtain ⟨a9, h, hFl⟩ := bind_ok_inv h
  obtain ⟨a8, h, hVs⟩ := bind_ok_inv h
  obtain ⟨a7, h, hSm⟩ := bind_ok_inv h
  obtain ⟨a6, h, hCu⟩ := bind_ok_inv h
  obtain ⟨a5, h, hGu⟩ := bind_ok_inv h
  obtain ⟨a4, h, hEx⟩ := bind_ok_inv h
  obtain ⟨a3, h, hFx⟩ := bind_ok_inv h
  obtain ⟨a2, h, hCk⟩ := bind_ok_inv h
  obtain ⟨a1, hRH, hRC⟩ := bind_ok_inv h
  have l7 : a7.loopCount = 0 := by
    rw [parseCue_loopCount hCu, parseFmtGuid_loopCount hGu,
      parseFmtExtra_loopCount hEx, parseFmtFixed_loopCount hFx,
      checkChunks_loopCount hCk, runChunks_loopCount hRC,
      readRiffHead_loopCount hRH]
    rfl
  have hs := parseSmpl_ok hSm
  have mVs := parseVorbSize_meta hVs
  have mFl := parseVorbFlags_meta hFl
  have mFo := forceOverride_meta hFo
  have mOf := parseVorbOffsets_meta hOf
  have mSk := parseVorbSeek2_meta hSk
  have mT := parseVorbTail_meta hT
  have mCL := checkLoops_ok hCL
  have hso : st.smplOffset = a7.smplOffset := by
    rw [mCL.1, mT.1, mSk.1, mOf.1, mFo.1, mFl.1, mVs.1, hs.1]
  have hlc : st.loopCount = a8.loopCount := by
    rw [mCL.2.1, mT.2, mSk.2, mOf.2, mFo.2, mFl.2, mVs.2]
  refine ⟨?_, ?_, ?_, ?_⟩
  · intro hne
    rw [hso] at hne
    rw [hlc]
    exact hs.2.1 hne
  · rcases eq_or_ne a7.smplOffset (-1) with he | hne
    · left
      rw [hlc, hs.2.2 he, l7]
    · right
      rw [hlc]
      exact hs.2.1 hne
  · intro hne
    have hi := mCL.2.2 hne
    exact ⟨hi.1, hi.2.1, hi.2.2.1⟩
  · exact ⟨a14, hCL, fun hne => (mCL.2.2 hne).2.2.2⟩

/-! ### Concrete WEM buffers -/

set_option maxRecDepth 100000

/-- A 154-byte RIFF WAVE WEM: `fmt ` of size 0x42 (with the embedded vorb:
`sample_count = 100`, `mod_signal = 0x4A`, zero packet offsets, blocksize
exponents 8/11), an `smpl` chunk with `loop_count = 1`, `loop_start = 5`,
stored `loop_end = 4` (adjusted to 5), and an empty `data` chunk. -/
def loopWemBytes : List Nat :=
  [0x52, 0x49, 0x46, 0x46] ++ [0x92, 0, 0, 0] ++ [0x57, 0x41, 0x56, 0x45] ++
  [0x66, 0x6D, 0x74, 0x20] ++ [0x42, 0, 0, 0] ++
  [0xFF, 0xFF] ++ [2, 0] ++ [0x80, 0xBB, 0, 0] ++ [0xA0, 0x0F, 0, 0] ++
  [0, 0] ++ [0, 0] ++ [0x30, 0] ++ [0, 0] ++ [3, 0, 0, 0] ++
  [100, 0, 0, 0] ++ [0x4A, 0, 0, 0] ++ [0, 0, 0, 0, 0, 0, 0, 0] ++
  [0, 0, 0, 0] ++ [0, 0, 0, 0] ++ [0, 0, 0, 0, 0, 0, 0, 0, 0, 0, 0, 0] ++
  [0, 0, 0, 0] ++ [8] ++ [11] ++
  [0x73, 0x6D, 0x70, 0x6C] ++ [52, 0, 0, 0] ++
  List.replicate 28 0 ++ [1, 0, 0, 0] ++ List.replicate 12 0 ++
  [5, 0, 0, 0] ++ [4, 0, 0, 0] ++
  [0x64, 0x61, 0x74, 0x61] ++ [0, 0, 0, 0]

/-- An 86-byte RIFF WAVE WEM identical in structure to `loopWemBytes` but
holding **only** the `fmt ` chunk: no `smpl` and — crucially — no `data`
chunk. -/
def noDataWemBytes : List Nat :=
  [0x52, 0x49, 0x46, 0x46] ++ [0x4E, 0, 0, 0] ++ [0x57, 0x41, 0x56, 0x45] ++
  [0x66, 0x6D, 0x74, 0x20] ++ [0x42, 0, 0, 0] ++
  [0xFF, 0xFF] ++ [2, 0] ++ [0x80, 0xBB, 0, 0] ++ [0xA0, 0x0F, 0, 0] ++
  [0, 0] ++ [0, 0] ++ [0x30, 0] ++ [0, 0] ++ [3, 0, 0, 0] ++
  [100, 0, 0, 0] ++ [0x4A, 0, 0, 0] ++ [0, 0, 0, 0, 0, 0, 0, 0] ++
  [0, 0, 0, 0] ++ [0, 0, 0, 0] ++ [0, 0, 0, 0, 0, 0, 0, 0, 0, 0, 0, 0] ++
  [0, 0, 0, 0] ++ [8] ++ [11]

/-- A 154-byte RIFF WAVE WEM identical in layout to `loopWemBytes` except
that the `smpl` chunk stores `loop_start = 0` and `loop_end = 0xFFFFFFFF`
(bytes 142-145).  The `uint32_t` increment at wwriff.cpp:458 wraps the
adjusted `loop_end` to `0`, so every range check at wwriff.cpp:461-462
passes and the constructor accepts the file. -/
def wrapLoopWemBytes : List Nat :=
  [0x52, 0x49, 0x46, 0x46] ++ [0x92, 0, 0, 0] ++ [0x57, 0x41, 0x56, 0x45] ++
  [0x66, 0x6D, 0x74, 0x20] ++ [0x42, 0, 0, 0] ++
  [0xFF, 0xFF] ++ [2, 0] ++ [0x80, 0xBB, 0, 0] ++ [0xA0, 0x0F, 0, 0] ++
  [0, 0] ++ [0, 0] ++ [0x30, 0] ++ [0, 0] ++ [3, 0, 0, 0] ++
  [100, 0, 0, 0] ++ [0x4A, 0, 0, 0] ++ [0, 0, 0, 0, 0, 0, 0, 0] ++
  [0, 0, 0, 0] ++ [0, 0, 0, 0] ++ [0, 0, 0, 0, 0, 0, 0, 0, 0, 0, 0, 0] ++
  [0, 0, 0, 0] ++ [8] ++ [11] ++
  [0x73, 0x6D, 0x70, 0x6C] ++ [52, 0, 0, 0] ++
  List.replicate 28 0 ++ [1, 0, 0, 0] ++ List.replicate 12 0 ++
  [0, 0, 0, 0] ++ [0xFF, 0xFF, 0xFF, 0xFF] ++
  [0x64, 0x61, 0x74, 0x61] ++ [0, 0, 0, 0]

/-- **C3.** The required-chunk check (wwriff.cpp:270) uses `&&`:
`if (m_fmt_offset == -1 && m_data_offset == -1)`.  A buffer whose chunk walk
records a `fmt ` chunk but **no** `data` chunk therefore passes it, and the
constructor completes without any `ParseError` — contradicting the intent
expressed by its own message `"expected fmt, data chunks"`. -/
theorem missing_data_chunk_accepted :
    (parseWem noDataWemBytes ForcePacketFormat.kNoForcePacketFormat).toOption.map
        (fun st => (st.fmtOffset, st.dataOffset)) =
      some (20, -1) := by decide

/-- The parsed state of `loopWemBytes` (used to instantiate the universally
quantified claims). -/
def loopWemParsed : WemState :=
  ((parseWem loopWemBytes ForcePacketFormat.kNoForcePacketFormat).toOption).getD
    initState

/-- **C8, counterexample to the claim as stated.**  `loopWemBytes` is
accepted by the constructor with `loop_count = 1` and adjusted loop values
`loop_start = loop_end = 5` (stored `loop_end = 4`, plus 1): the validation
at wwriff.cpp:461-462 rejects only `loop_start > loop_end`, so equality
passes and the claimed strict `loop_start < loop_end` fails. -/
theorem smpl_loop_equal_accepted :
    (parseWem loopWemBytes ForcePacketFormat.kNoForcePacketFormat).toOption.map
        (fun st => (st.loopCount, st.loopStart, st.loopEnd)) =
      some (1, 5, 5) ∧ ¬ ((5 : Nat) < 5) :=
  ⟨by rfl, by decide⟩

/-- **C8 (amended).**  For every WEM accepted by the parser: if an `smpl`
chunk is present then `loop_count = 1` (any other value is rejected with a
parse error), and whenever `loop_count = 1` the adjusted values satisfy
`loop_start ≤ loop_end ≤ sample_count` and `loop_start < sample_count`
(equality of `loop_start` and `loop_end` is accepted, so the claimed strict
`loop_start < loop_end` weakens to `≤`). -/
theorem smpl_loop_invariants (bytes : List Nat) (fpf : ForcePacketFormat)
    (st : WemState) (h : parseWem bytes fpf = .ok st) :
    (st.smplOffset ≠ -1 → st.loopCount = 1) ∧
    (st.loopCount ≠ 0 →
      st.loopStart ≤ st.loopEnd ∧ st.loopEnd ≤ st.sampleCount ∧
      st.loopStart < st.sampleCount) :=
  ⟨(parseWem_ok_inv h).1, (parseWem_ok_inv h).2.2.1⟩

/-- Witness for `smpl_loop_invariants` at the concrete accepted WEM
`loopWemBytes`. -/
theorem smpl_loop_invariants_witness :
    (loopWemParsed.smplOffset ≠ -1 → loopWemParsed.loopCount = 1) ∧
    (loopWemParsed.loopCount ≠ 0 →
      loopWemParsed.loopStart ≤ loopWemParsed.loopEnd ∧
      loopWemParsed.loopEnd ≤ loopWemParsed.sampleCount ∧
      loopWemParsed.loopStart < loopWemParsed.sampleCount) :=
  smpl_loop_invariants loopWemBytes ForcePacketFormat.kNoForcePacketFormat
    loopWemParsed (by rfl)

/-! ## Comment packet generation (`GenerateOggHeader`, wwriff.cpp:607-665,
claim C5) -/

/-- The LSB-first bit image of a string emitted byte-by-byte
(`BitUint<8> c(...); os << c` per character). -/
def strBits (s : String) : List Bool :=
  s.data.flatMap (fun c => lsbBits c.toNat 8)

/-- `g_vendor` (wwriff.cpp:613-614): the version constant `g_version`
(wwriff.h:16) appended to the fixed prefix. -/
def vendorString : String :=
  "converted from Audiokinetic Wwise by ww2ogg " ++ "0.24"

/-- The comment packet emitted by `GenerateOggHeader` (wwriff.cpp:607-665):
packet type 3, `"vorbis"`, 32-bit vendor length, vendor bytes, then — by the
`m_loop_count == 0` branch — either a zero user-comment count or two
`LoopStart=`/`LoopEnd=` comments, and the framing bit. -/
def commentPacketBits (loopCount loopStart loopEnd : Nat) : List Bool :=
  lsbBits 3 8 ++ strBits "vorbis" ++
  lsbBits vendorString.length 32 ++ strBits vendorString ++
  (if loopCount = 0 then
    lsbBits 0 32
  else
    lsbBits 2 32 ++
    lsbBits ("LoopStart=" ++ toString loopStart).length 32 ++
    strBits ("LoopStart=" ++ toString loopStart) ++
    lsbBits ("LoopEnd=" ++ toString loopEnd).length 32 ++
    strBits ("LoopEnd=" ++ toString loopEnd)) ++
  lsbBits 1 1

/-- The Vorbis comment packet as claim C5 describes it: a vendor string and
a list of user comments, serialised in the standard layout (spec-side
definition, for comparison with `commentPacketBits`). -/
def vorbisCommentSerialize (vendor : String) (comments : List String) :
    List Bool :=
  lsbBits 3 8 ++ strBits "vorbis" ++
  lsbBits vendor.length 32 ++ strBits vendor ++
  lsbBits comments.length 32 ++
  comments.flatMap (fun c => lsbBits c.length 32 ++ strBits c) ++
  lsbBits 1 1

lemma commentPacketBits_spec (lc ls le : Nat) (hlc : lc = 0 ∨ lc = 1) :
    commentPacketBits lc ls le =
      vorbisCommentSerialize "converted from Audiokinetic Wwise by ww2ogg 0.24"
        (if lc = 1 then
          ["LoopStart=" ++ toString ls, "LoopEnd=" ++ toString le]
        else []) := by
  have hv : vendorString = "converted from Audiokinetic Wwise by ww2ogg 0.24" := rfl
  rcases hlc with h | h <;> subst h <;>
    simp [commentPacketBits, vorbisCommentSerialize, hv, List.flatMap]

/-- **C5 (amended).**  For every WEM accepted by the parser, the generated
comment packet carries the vendor string
`"converted from Audiokinetic Wwise by ww2ogg 0.24"` and exactly two user
comments `LoopStart=<n>` / `LoopEnd=<n>` when `loop_count = 1` (zero when
`loop_count = 0`), their values being the parser's adjusted loop points: the
adjusted `loop_end` is the stored one replaced by `sample_count` when 0,
else the stored value plus 1 **reduced modulo `2^32`** (`adjustLoopEnd`; the
claim's unqualified "plus 1" fails at stored `loop_end = 0xFFFFFFFF`, where
the `uint32_t` increment at wwriff.cpp:458 wraps to 0). -/
theorem generated_comment_packet (bytes : List Nat) (fpf : ForcePacketFormat)
    (st : WemState) (h : parseWem bytes fpf = .ok st) :
    commentPacketBits st.loopCount st.loopStart st.loopEnd =
      vorbisCommentSerialize "converted from Audiokinetic Wwise by ww2ogg 0.24"
        (if st.loopCount = 1 then
          ["LoopStart=" ++ toString st.loopStart,
            "LoopEnd=" ++ toString st.loopEnd]
        else []) ∧
    (∃ st0, checkLoops st0 = .ok st ∧
      (st.loopCount ≠ 0 →
        st.loopEnd = adjustLoopEnd st0.loopEnd st0.sampleCount)) := by
  have i := parseWem_ok_inv h
  exact ⟨commentPacketBits_spec _ _ _ i.2.1, i.2.2.2⟩

/-- Witness for `generated_comment_packet` at the concrete accepted WEM
`loopWemBytes` (whose comments are `LoopStart=5` and `LoopEnd=5`). -/
theorem generated_comment_packet_witness :
    commentPacketBits loopWemParsed.loopCount loopWemParsed.loopStart
        loopWemParsed.loopEnd =
      vorbisCommentSerialize "converted from Audiokinetic Wwise by ww2ogg 0.24"
        (if loopWemParsed.loopCount = 1 then
          ["LoopStart=" ++ toString loopWemParsed.loopStart,
            "LoopEnd=" ++ toString loopWemParsed.loopEnd]
        else []) ∧
    (∃ st0, checkLoops st0 = .ok loopWemParsed ∧
      (loopWemParsed.loopCount ≠ 0 →
        loopWemParsed.loopEnd = adjustLoopEnd st0.loopEnd st0.sampleCount)) :=
  generated_comment_packet loopWemBytes ForcePacketFormat.kNoForcePacketFormat
    loopWemParsed (by rfl)

/-- **C5, counterexample to the claim as stated.**  `wrapLoopWemBytes`
stores `loop_end = 0xFFFFFFFF` (a non-zero value, read back from bytes
142-145), yet the constructor accepts it with adjusted `loop_end = 0`
because the `uint32_t` increment at wwriff.cpp:458 wraps: the emitted user
comment is `LoopEnd=0`, not `LoopEnd=<stored loop_end plus 1>` as the claim
requires (`0 ≠ 0xFFFFFFFF + 1`). -/
theorem generated_comment_wrap_counterexample :
    read32At true wrapLoopWemBytes 142 = some 4294967295 ∧
    (parseWem wrapLoopWemBytes ForcePacketFormat.kNoForcePacketFormat).toOption.map
        (fun st => (st.loopCount, st.loopStart, st.loopEnd)) =
      some (1, 0, 0) ∧
    commentPacketBits 1 0 0 =
      vorbisCommentSerialize "converted from Audiokinetic Wwise by ww2ogg 0.24"
        ["LoopStart=" ++ toString (0 : Nat), "LoopEnd=" ++ toString (0 : Nat)] ∧
    (0 : Nat) ≠ 4294967295 + 1 :=
  ⟨by rfl, by rfl, by rfl, by decide⟩

end WwiseTools
